import Mathlib

/-!
# GithubDeployBot: the `verifyAuthorization` workflow action

A shallow embedding of `src/github-action/index.js` and the properties of its
request / poll / decide protocol.

Modelling conventions.

* The run is a pure function from a `World` (everything the action reads from
  outside: the workflow inputs, the JavaScript runtime functions it calls and the
  answers of the authorization server) to the ordered list of effects it performs
  (`Event`): `core.setSecret`, `axios.post`, `sleep`, `console.log`, `core.setFailed`.
* JavaScript numbers are `JSNum`: `NaN`, the two infinities, or a finite value given as a
  rational. Every arithmetic operation (`*`, `/`, `+`, and so `runIndex++`) rounds its exact
  result to binary64 with `toDouble`: to nearest, ties to even, overflow to an infinity. The
  sign of zero is not modelled.
* `r.data.actioned` and `r.data.authorized` are read only through JavaScript
  truthiness; `Decision` records the truthiness of the two fields.
* The `while` loop is run with fuel: `none` means the fuel ran out before the loop
  condition became false.
-/

namespace GithubDeployBot

/-! ## JavaScript numbers -/

/-- JavaScript number values: `NaN`, `Infinity`, `-Infinity`, or a finite value. -/
inductive JSNum where
  | nan
  | posInf
  | negInf
  | fin (q : ℚ)
  deriving DecidableEq

/-- Round to the nearest integer, a tie going to the even one. -/
def roundHalfEven (x : ℚ) : ℤ :=
  if x - ⌊x⌋ < 1 / 2 then ⌊x⌋
  else if 1 / 2 < x - ⌊x⌋ then ⌊x⌋ + 1
  else if ⌊x⌋ % 2 = 0 then ⌊x⌋ else ⌊x⌋ + 1

/-- The binary64 value of the real number `q`: rounded to nearest, ties to even, with 53
significant bits, exponents from -1022 (subnormal below that), and overflow to an infinity. -/
def toDouble (q : ℚ) : JSNum :=
  if q = 0 then .fin 0
  else
    let ulp : ℚ := 2 ^ (max (Int.log 2 |q|) (-1022) - 52)
    let r : ℚ := roundHalfEven (q / ulp) * ulp
    if (2 : ℚ) ^ (1024 : ℕ) ≤ |r| then (if 0 < q then .posInf else .negInf) else .fin r

namespace JSNum

/-- JavaScript `a * b`. -/
def mul : JSNum → JSNum → JSNum
  | nan, _ => nan
  | _, nan => nan
  | fin a, fin b => toDouble (a * b)
  | posInf, posInf => posInf
  | posInf, negInf => negInf
  | negInf, posInf => negInf
  | negInf, negInf => posInf
  | posInf, fin b => if 0 < b then posInf else if b < 0 then negInf else nan
  | negInf, fin b => if 0 < b then negInf else if b < 0 then posInf else nan
  | fin a, posInf => if 0 < a then posInf else if a < 0 then negInf else nan
  | fin a, negInf => if 0 < a then negInf else if a < 0 then posInf else nan

/-- JavaScript `a / b` (a zero divisor is taken as `+0`). -/
def div : JSNum → JSNum → JSNum
  | nan, _ => nan
  | _, nan => nan
  | fin a, fin b =>
    if b = 0 then (if 0 < a then posInf else if a < 0 then negInf else nan)
    else toDouble (a / b)
  | fin _, posInf => fin 0
  | fin _, negInf => fin 0
  | posInf, fin b => if b < 0 then negInf else posInf
  | negInf, fin b => if b < 0 then posInf else negInf
  | posInf, posInf => nan
  | posInf, negInf => nan
  | negInf, posInf => nan
  | negInf, negInf => nan

/-- JavaScript `a + b`. -/
def add : JSNum → JSNum → JSNum
  | nan, _ => nan
  | _, nan => nan
  | fin a, fin b => toDouble (a + b)
  | posInf, negInf => nan
  | negInf, posInf => nan
  | posInf, _ => posInf
  | negInf, _ => negInf
  | fin _, posInf => posInf
  | fin _, negInf => negInf

/-- JavaScript `a >= b`. -/
def ge : JSNum → JSNum → Bool
  | nan, _ => false
  | _, nan => false
  | posInf, _ => true
  | _, negInf => true
  | negInf, _ => false
  | fin _, posInf => false
  | fin a, fin b => decide (b ≤ a)

end JSNum

/-! ## Values, objects and effects -/

/-- The values stored in the request bodies: a string, or the result of `JSON.parse`. -/
inductive Val (J : Type) where
  | str (s : String)
  | json (j : J)
  deriving DecidableEq

/-- An object literal: its keys in order, each with its value. -/
abbrev Obj (J : Type) := List (String × Val J)

/-- One operand of a string concatenation passed to `console.log`. -/
inductive Piece where
  | text (s : String)
  | num (n : JSNum)
  deriving DecidableEq

/-- The truthiness of `r.data.actioned` and `r.data.authorized`. -/
structure Decision where
  actioned : Bool
  authorized : Bool
  deriving DecidableEq

/-- The effects of a run, in the order they happen. -/
inductive Event (J : Type) where
  | setSecret (secret : String)
  | post (url : String) (body : Obj J)
  | sleep (milliseconds : Nat)
  | log (line : List Piece)
  | setFailed (message : String)
  deriving DecidableEq

/-- Everything the action reads from outside itself. -/
structure World (J : Type) where
  /-- The function `core.getInput(name)`. -/
  getInput : String → String
  /-- The function `JSON.parse(text)`: the parsed value, or the message of the error thrown. -/
  jsonParse : String → Except String J
  /-- The numeric value JavaScript gives a string used in an arithmetic expression. -/
  toNumber : String → JSNum
  /-- The value returned by `uuidv4()`. -/
  uuidv4 : String
  /-- The expression `new Date().toLocaleString("en-CA", {timeZone: timezone})` as a function
  of `timezone`: the rendered date, or the message of the error thrown. -/
  toLocaleString : String → Except String String
  /-- Outcome of the submission `axios.post`: success, or the message of the rejection. -/
  submission : Except String Unit
  /-- Outcome of the `k`-th verification `axios.post` (`k = 1, 2, ...`) together with the
  reading of `r.data` in its `then` callback: the decision, or the message of the rejection. -/
  verification : Nat → Except String Decision

/-! ## The program -/

def DELAY_BETWEEN_ATTEMPTS_IN_SECONDS : Nat := 5

/-- The variables of the polling loop. -/
structure LoopVars where
  runIndex : JSNum
  answerProvided : Bool
  response : Decision
  deriving DecidableEq

/-- The line logged at the start of each iteration of the loop:
`"Checking authorization attempt " + runIndex + " of " + numberOfRuns + "..."`. -/
def checkingLine (runIndex numberOfRuns : JSNum) : List Piece :=
  [.text "Checking authorization attempt ", .num runIndex, .text " of ",
    .num numberOfRuns, .text "..."]

/-- The `while` loop of `verifyAuthorization`. `polled` is the number of verification calls the
server has answered so far. The result is the effects performed and either the variables at loop
exit or the message of the error thrown out of the loop. -/
def pollLoop {J : Type} (verification : Nat → Except String Decision)
    (verificationUrl : String) (verificationBody : Obj J) (numberOfRuns : JSNum) :
    Nat → Nat → LoopVars → Option (List (Event J) × Except String LoopVars)
  | 0, _, s =>
    if s.answerProvided == false && numberOfRuns.ge s.runIndex then none
    else some ([], .ok s)
  | fuel + 1, polled, s =>
    if s.answerProvided == false && numberOfRuns.ge s.runIndex then
      let effects : List (Event J) :=
        [ .log (checkingLine s.runIndex numberOfRuns),
          .sleep (DELAY_BETWEEN_ATTEMPTS_IN_SECONDS * 1000),
          .post verificationUrl verificationBody ]
      match verification (polled + 1) with
      | .error message => some (effects, .error message)
      | .ok data =>
        let s1 : LoopVars :=
          { runIndex := s.runIndex.add (.fin 1)
            answerProvided := if data.actioned then true else s.answerProvided
            response := data }
        match pollLoop verification verificationUrl verificationBody numberOfRuns fuel
            (polled + 1) s1 with
        | none => none
        | some (rest, r) => some (effects ++ rest, r)
    else some ([], .ok s)

/-- The variables at loop entry: `runIndex = 1`, `answerProvided = false`, `response = {}`. -/
def initialVars : LoopVars :=
  { runIndex := .fin 1, answerProvided := false, response := ⟨false, false⟩ }

/-- The body submitted to the authorization server. -/
def authorizationRequestBody {J : Type} (buildUuid submitted_date requestor version
    latestCommitHash : String) (deploymentEnvironments whitelistedEnvironments : J)
    (buildType slackChannelId slackBotOAuthToken : String) : Obj J :=
  [ ("id", .str buildUuid),
    ("submitted_date", .str submitted_date),
    ("requestor", .str requestor),
    ("version", .str version),
    ("commit_hash", .str latestCommitHash),
    ("deployment_environments", .json deploymentEnvironments),
    ("whitelisted_environments", .json whitelistedEnvironments),
    ("build_type", .str buildType),
    ("slack_channel_id", .str slackChannelId),
    ("slack_bot_oauth_token", .str slackBotOAuthToken) ]

/-- The body of every verification call. -/
def verificationBody {J : Type} (buildUuid : String) : Obj J :=
  [ ("id", .str buildUuid) ]

/-- The value of `numberOfRuns` for a given numeric value of `timeout`. -/
def numberOfRuns (timeout : JSNum) : JSNum :=
  (timeout.mul (.fin 60)).div (.fin DELAY_BETWEEN_ATTEMPTS_IN_SECONDS)

/-- The message of the failure signalled when no answer was provided. -/
def timedOutMessage (timeout : String) : String :=
  "No answer provided to authorize the deploy after " ++ timeout ++
    " minutes. This deploy is not authorized to continue..."

/-- The `try` block of `verifyAuthorization`: the effects performed, and whether the block
completed or threw (with the message of the error). -/
def tryBlock {J : Type} (w : World J) (fuel : Nat) : Option (List (Event J) × Except String Unit) :=
  let authorizationServerUrl := w.getInput "authorization-server-url"
  let version := w.getInput "version"
  let requestor := w.getInput "requestor"
  let latestCommitHash := w.getInput "latest-commit-hash"
  let buildType := w.getInput "build-type"
  match w.jsonParse (w.getInput "deployment-environments") with
  | .error message => some ([], .error message)
  | .ok deploymentEnvironments =>
  match w.jsonParse (w.getInput "whitelisted-environments") with
  | .error message => some ([], .error message)
  | .ok whitelistedEnvironments =>
  let timeout := w.getInput "timeout"
  let timezone := w.getInput "timezone"
  let slackChannelId := w.getInput "slack-channel-id"
  let slackBotOAuthToken := w.getInput "slack-bot-oauth-token"
  let buildUuid := w.uuidv4
  let secrets : List (Event J) :=
    [.setSecret slackChannelId, .setSecret slackBotOAuthToken, .setSecret buildUuid]
  match w.toLocaleString timezone with
  | .error message => some (secrets, .error message)
  | .ok submitted_date =>
  let submit : List (Event J) :=
    [.post (authorizationServerUrl ++ "?type=build_deploy_requested")
      (authorizationRequestBody buildUuid submitted_date requestor version latestCommitHash
        deploymentEnvironments whitelistedEnvironments buildType slackChannelId
        slackBotOAuthToken)]
  match w.submission with
  | .error message => some (secrets ++ submit, .error message)
  | .ok () =>
  let verificationUrl := authorizationServerUrl ++ "?type=verify_authorization"
  match pollLoop w.verification verificationUrl (verificationBody buildUuid)
      (numberOfRuns (w.toNumber timeout)) fuel 0 initialVars with
  | none => none
  | some (polling, .error message) => some (secrets ++ submit ++ polling, .error message)
  | some (polling, .ok s) =>
    if s.answerProvided == true then
      if s.response.authorized then
        some (secrets ++ submit ++ polling ++
          [.log [.text "The deploy is authorized to continue."]], .ok ())
      else
        some (secrets ++ submit ++ polling ++ [.setFailed "The deploy has been denied."], .ok ())
    else
      some (secrets ++ submit ++ polling ++ [.setFailed (timedOutMessage timeout)], .ok ())

/-- The action: the `try` block, and `core.setFailed(error.message)` in the `catch`. -/
def verifyAuthorization {J : Type} (w : World J) (fuel : Nat) : Option (List (Event J)) :=
  match tryBlock w fuel with
  | none => none
  | some (effects, .ok ()) => some effects
  | some (effects, .error message) => some (effects ++ [.setFailed message])

/-! ## Observations on a run -/

/-- The messages passed to `core.setFailed`, in order. -/
def failures {J : Type} : List (Event J) → List String
  | [] => []
  | .setFailed m :: t => m :: failures t
  | _ :: t => failures t

/-- The lines passed to `console.log`, in order. -/
def logs {J : Type} : List (Event J) → List (List Piece)
  | [] => []
  | .log l :: t => l :: logs t
  | _ :: t => logs t

/-- The bodies posted to `url`, in order. -/
def postsTo {J : Type} (url : String) : List (Event J) → List (Obj J)
  | [] => []
  | .post u b :: t => if u = url then b :: postsTo url t else postsTo url t
  | _ :: t => postsTo url t

/-- The number of calls to `sleep`. -/
def sleepCount {J : Type} : List (Event J) → Nat
  | [] => 0
  | .sleep _ :: t => sleepCount t + 1
  | _ :: t => sleepCount t

/-- The URL of the submission call. -/
def submissionUrl {J : Type} (w : World J) : String :=
  w.getInput "authorization-server-url" ++ "?type=build_deploy_requested"

/-- The URL of the verification calls. -/
def verificationUrl {J : Type} (w : World J) : String :=
  w.getInput "authorization-server-url" ++ "?type=verify_authorization"

/-- The number of verification polls issued. -/
def pollCount {J : Type} (w : World J) (trace : List (Event J)) : Nat :=
  (postsTo (verificationUrl w) trace).length

/-- The run parses its inputs, renders the submission date, and the submission call succeeds. -/
def SubmissionSucceeds {J : Type} (w : World J) : Prop :=
  (∃ d, w.jsonParse (w.getInput "deployment-environments") = .ok d) ∧
  (∃ e, w.jsonParse (w.getInput "whitelisted-environments") = .ok e) ∧
  (∃ t, w.toLocaleString (w.getInput "timezone") = .ok t) ∧
  w.submission = .ok ()

/-- The run parses its inputs, renders the submission date, and the submission call is rejected
with `message`. -/
def SubmissionFails {J : Type} (w : World J) (message : String) : Prop :=
  (∃ d, w.jsonParse (w.getInput "deployment-environments") = .ok d) ∧
  (∃ e, w.jsonParse (w.getInput "whitelisted-environments") = .ok e) ∧
  (∃ t, w.toLocaleString (w.getInput "timezone") = .ok t) ∧
  w.submission = .error message

/-! ## Auxiliary definitions for the proofs -/

/-- The value of `runIndex` after `c` executions of `runIndex++`, starting from `start`. -/
def runIndexAfter (c : Nat) (start : JSNum) : JSNum :=
  (fun x => JSNum.add x (.fin 1))^[c] start

/-- What holds of any result `(t, r)` of the loop started with `polled` calls answered and
variables `s`, where `c` is the number of verification calls in `t`. -/
structure LoopFacts {J : Type} (verification : Nat → Except String Decision) (url : String)
    (body : Obj J) (n : JSNum) (polled : Nat) (s : LoopVars) (t : List (Event J))
    (r : Except String LoopVars) : Prop where
  noFailure : failures t = []
  posts : postsTo url t = List.replicate (postsTo url t).length body
  otherPosts : ∀ u, u ≠ url → postsTo u t = []
  sleeps : sleepCount t = (postsTo url t).length
  lines : logs t = (List.range (postsTo url t).length).map fun i =>
    checkingLine (runIndexAfter i s.runIndex) n
  earlier : ∀ j, 1 ≤ j → j < (postsTo url t).length →
    ∃ d, verification (polled + j) = .ok d ∧ d.actioned = false
  entered : 1 ≤ (postsTo url t).length →
    s.answerProvided = false ∧
      n.ge (runIndexAfter ((postsTo url t).length - 1) s.runIndex) = true
  thrown : ∀ m, r = .error m →
    1 ≤ (postsTo url t).length ∧ verification (polled + (postsTo url t).length) = .error m
  exited : ∀ s1, r = .ok s1 →
    s1.runIndex = runIndexAfter (postsTo url t).length s.runIndex ∧
    ((postsTo url t).length = 0 → s1 = s) ∧
    (1 ≤ (postsTo url t).length →
      verification (polled + (postsTo url t).length) = .ok s1.response ∧
      s1.answerProvided = s1.response.actioned) ∧
    (s1.answerProvided = false → n.ge s1.runIndex = false)

/-- The effects of one iteration of the loop. -/
def iteration {J : Type} (url : String) (body : Obj J) (n : JSNum) (s : LoopVars) :
    List (Event J) :=
  [ .log (checkingLine s.runIndex n),
    .sleep (DELAY_BETWEEN_ATTEMPTS_IN_SECONDS * 1000),
    .post url body ]

/-- The variables after an iteration whose call returned `data`. -/
def advance (s : LoopVars) (data : Decision) : LoopVars :=
  { runIndex := s.runIndex.add (.fin 1)
    answerProvided := if data.actioned then true else s.answerProvided
    response := data }

/-- The three calls to `core.setSecret`. -/
def secretEvents {J : Type} (w : World J) : List (Event J) :=
  [ .setSecret (w.getInput "slack-channel-id"),
    .setSecret (w.getInput "slack-bot-oauth-token"),
    .setSecret w.uuidv4 ]

/-- The body submitted by a run in world `w`, given the parsed lists and the rendered date. -/
def submittedBody {J : Type} (w : World J) (de we : J) (date : String) : Obj J :=
  authorizationRequestBody w.uuidv4 date (w.getInput "requestor") (w.getInput "version")
    (w.getInput "latest-commit-hash") de we (w.getInput "build-type")
    (w.getInput "slack-channel-id") (w.getInput "slack-bot-oauth-token")

/-- The effects up to and including the submission call. -/
def prelude {J : Type} (w : World J) (de we : J) (date : String) : List (Event J) :=
  secretEvents w ++ [.post (submissionUrl w) (submittedBody w de we date)]

/-- The effect that ends a run whose polling loop ended with `r`. -/
def conclusion {J : Type} (timeout : String) : Except String LoopVars → Event J
  | .error message => .setFailed message
  | .ok s =>
    if s.answerProvided == true then
      if s.response.authorized then .log [.text "The deploy is authorized to continue."]
      else .setFailed "The deploy has been denied."
    else .setFailed (timedOutMessage timeout)

/-- The polling loop as `verifyAuthorization` runs it in world `w`. -/
def polling {J : Type} (w : World J) (fuel : Nat) :
    Option (List (Event J) × Except String LoopVars) :=
  pollLoop w.verification (verificationUrl w) (verificationBody w.uuidv4)
    (numberOfRuns (w.toNumber (w.getInput "timeout"))) fuel 0 initialVars

/-- What a run shows: the lines logged and the failure messages signalled. -/
def outputs {J : Type} (trace : List (Event J)) : List (List Piece) × List String :=
  (logs trace, failures trace)

/-- What the loop shows, with how it ended. -/
def loopOutputs {J : Type} (p : List (Event J) × Except String LoopVars) :
    List (List Piece) × List String × Except String LoopVars :=
  (logs p.1, failures p.1, p.2)

/-! ## Sample worlds -/

/-- A world for examples: fixed descriptive inputs, the given `timeout` input with its numeric
value, and the given behaviour of the authorization server. -/
def sampleWorld (timeout : String) (minutes : JSNum) (submission : Except String Unit)
    (verification : Nat → Except String Decision) : World (List String) where
  getInput := fun name =>
    if name = "authorization-server-url" then "https://auth.example/deploy"
    else if name = "version" then "1.4.2"
    else if name = "requestor" then "octocat"
    else if name = "latest-commit-hash" then "9fceb02"
    else if name = "build-type" then "release"
    else if name = "deployment-environments" then "[]"
    else if name = "whitelisted-environments" then "[]"
    else if name = "timeout" then timeout
    else if name = "timezone" then "America/Toronto"
    else if name = "slack-channel-id" then "C024BE91L"
    else if name = "slack-bot-oauth-token" then "token-1"
    else ""
  jsonParse := fun text => if text = "[]" then .ok [] else .error "Unexpected token"
  toNumber := fun text => if text = timeout then minutes else .nan
  uuidv4 := "1b9d6bcd-bbfd-4b2d-9b5d-ab8dfbbd4bed"
  toLocaleString := fun _ => .ok "2022-03-01, 10:15:00 a.m."
  submission := submission
  verification := verification

/-- A server that never reports an answer. -/
def neverActioned : Nat → Except String Decision := fun _ => .ok ⟨false, false⟩

/-- A server that reports `decision` at poll `k` and no answer before or after. -/
def actionedAt (k : Nat) (decision : Decision) : Nat → Except String Decision :=
  fun j => if j = k then .ok decision else .ok ⟨false, false⟩

/-- A server whose poll `k` is rejected with `message`, with no answer before or after. -/
def rejectedAt (k : Nat) (message : String) : Nat → Except String Decision :=
  fun j => if j = k then .error message else .ok ⟨false, false⟩

/-- A run with a five-minute timeout that is approved at the first poll. -/
def approvedAtFirstPoll : World (List String) :=
  sampleWorld "5" (.fin 5) (.ok ()) (actionedAt 1 ⟨true, true⟩)

/-- The effects of the run of `approvedAtFirstPoll`, one by one. -/
def approvedAtFirstPollTrace : List (Event (List String)) :=
  [ .setSecret "C024BE91L",
    .setSecret "token-1",
    .setSecret "1b9d6bcd-bbfd-4b2d-9b5d-ab8dfbbd4bed",
    .post "https://auth.example/deploy?type=build_deploy_requested"
      [ ("id", .str "1b9d6bcd-bbfd-4b2d-9b5d-ab8dfbbd4bed"),
        ("submitted_date", .str "2022-03-01, 10:15:00 a.m."),
        ("requestor", .str "octocat"),
        ("version", .str "1.4.2"),
        ("commit_hash", .str "9fceb02"),
        ("deployment_environments", .json []),
        ("whitelisted_environments", .json []),
        ("build_type", .str "release"),
        ("slack_channel_id", .str "C024BE91L"),
        ("slack_bot_oauth_token", .str "token-1") ],
    .log [.text "Checking authorization attempt ", .num (.fin 1), .text " of ",
      .num (.fin 60), .text "..."],
    .sleep 5000,
    .post "https://auth.example/deploy?type=verify_authorization"
      [("id", .str "1b9d6bcd-bbfd-4b2d-9b5d-ab8dfbbd4bed")],
    .log [.text "The deploy is authorized to continue."] ]

/-- The world `w` with other secrets: another generated identifier, channel id and token. -/
def withSecrets {J : Type} (w : World J) (uuid channel token : String) : World J :=
  { w with
    getInput := fun name =>
      if name = "slack-channel-id" then channel
      else if name = "slack-bot-oauth-token" then token
      else w.getInput name
    uuidv4 := uuid }

/-! ## Observations and concatenation -/

theorem failures_append {J : Type} (a b : List (Event J)) :
    failures (a ++ b) = failures a ++ failures b := by
  induction a with
  | nil => rfl
  | cons e t ih => cases e <;> simp [failures, ih]

theorem logs_append {J : Type} (a b : List (Event J)) :
    logs (a ++ b) = logs a ++ logs b := by
  induction a with
  | nil => rfl
  | cons e t ih => cases e <;> simp [logs, ih]

theorem postsTo_append {J : Type} (url : String) (a b : List (Event J)) :
    postsTo url (a ++ b) = postsTo url a ++ postsTo url b := by
  induction a with
  | nil => rfl
  | cons e t ih =>
    cases e <;> simp [postsTo, ih]
    split <;> simp

theorem sleepCount_append {J : Type} (a b : List (Event J)) :
    sleepCount (a ++ b) = sleepCount a + sleepCount b := by
  induction a with
  | nil => simp [sleepCount]
  | cons e t ih => cases e <;> simp [sleepCount, ih]; omega

/-- The two query discriminators give different URLs. -/
theorem submissionUrl_ne_verificationUrl {J : Type} (w : World J) :
    submissionUrl w ≠ verificationUrl w := by
  intro h
  have h2 := congrArg String.data h
  simp only [submissionUrl, verificationUrl, String.data_append] at h2
  have h3 := List.append_cancel_left h2
  exact absurd h3 (by decide)

/-! ## Rounding to binary64 -/

theorem roundHalfEven_intCast (m : ℤ) : roundHalfEven (m : ℚ) = m := by
  simp [roundHalfEven]

/-- A value strictly within one half of the integer `m` rounds to `m`. -/
theorem roundHalfEven_of_near (x : ℚ) (m : ℤ) (h1 : (m : ℚ) - 1 / 2 < x)
    (h2 : x < (m : ℚ) + 1 / 2) : roundHalfEven x = m := by
  unfold roundHalfEven
  by_cases hx : (m : ℚ) ≤ x
  · have hf : ⌊x⌋ = m := by
      rw [Int.floor_eq_iff]; constructor <;> linarith
    rw [hf, if_pos (by linarith)]
  · have hf : ⌊x⌋ = m - 1 := by
      rw [Int.floor_eq_iff]; push_cast; constructor <;> linarith
    rw [hf]
    push_cast
    rw [if_neg (by linarith), if_pos (by linarith)]
    ring

/-- A value half way above the even integer `m` rounds down to `m`. -/
theorem roundHalfEven_tie_down (x : ℚ) (m : ℤ) (hx : x = (m : ℚ) + 1 / 2) (hm : m % 2 = 0) :
    roundHalfEven x = m := by
  unfold roundHalfEven
  have hf : ⌊x⌋ = m := by
    rw [Int.floor_eq_iff]; constructor <;> linarith
  rw [hf, if_neg (by linarith), if_neg (by linarith), if_pos hm]

/-- The binary64 value of `q` from its exponent `e` and its rounded significand `m`. -/
theorem toDouble_eq (q : ℚ) (e m : ℤ) (hq : q ≠ 0) (hlo : (2 : ℚ) ^ e ≤ |q|)
    (hhi : |q| < (2 : ℚ) ^ (e + 1)) (he : -1022 ≤ e)
    (hm : roundHalfEven (q / (2 : ℚ) ^ (e - 52)) = m)
    (hfin : |(m : ℚ) * (2 : ℚ) ^ (e - 52)| < (2 : ℚ) ^ (1024 : ℕ)) :
    toDouble q = .fin ((m : ℚ) * (2 : ℚ) ^ (e - 52)) := by
  have hpos : 0 < |q| := abs_pos.mpr hq
  have hlog : Int.log 2 |q| = e := by
    apply le_antisymm
    · have := (Int.lt_zpow_iff_log_lt (R := ℚ) (b := 2) (by norm_num) hpos).mp
        (by exact_mod_cast hhi)
      omega
    · exact (Int.zpow_le_iff_le_log (R := ℚ) (b := 2) (by norm_num) hpos).mp
        (by exact_mod_cast hlo)
  unfold toDouble
  rw [if_neg hq]
  simp only [hlog, max_eq_left he, hm]
  rw [if_neg (not_le.mpr hfin)]

theorem toDouble_zero : toDouble 0 = .fin 0 := by
  simp [toDouble]

/-- Natural numbers up to `2 ^ 53` are binary64 values. -/
theorem toDouble_natCast (n : ℕ) (hn : n ≤ 2 ^ 53) : toDouble (n : ℚ) = .fin (n : ℚ) := by
  rcases Nat.eq_zero_or_pos n with rfl | hpos
  · simpa using toDouble_zero
  · have hne : n ≠ 0 := by omega
    have hlogle : Nat.log 2 n ≤ 53 := by
      have := Nat.log_mono_right (b := 2) hn
      rwa [Nat.log_pow (by norm_num)] at this
    have hlo : 2 ^ Nat.log 2 n ≤ n := Nat.pow_log_le_self 2 hne
    have hhi : n < 2 ^ (Nat.log 2 n + 1) := Nat.lt_pow_succ_log_self (by norm_num) n
    obtain ⟨m, hm⟩ : ∃ m : ℤ, (n : ℚ) / (2 : ℚ) ^ ((Nat.log 2 n : ℤ) - 52) = (m : ℚ) := by
      by_cases h52 : Nat.log 2 n ≤ 52
      · refine ⟨(n : ℤ) * 2 ^ (52 - Nat.log 2 n), ?_⟩
        have : ((Nat.log 2 n : ℤ) - 52) = -((52 - Nat.log 2 n : ℕ) : ℤ) := by omega
        rw [this, zpow_neg, zpow_natCast]
        push_cast
        field_simp
      · have h53 : Nat.log 2 n = 53 := by omega
        have hn53 : n = 2 ^ 53 := by
          rw [h53] at hlo; omega
        refine ⟨2 ^ 52, ?_⟩
        rw [h53, hn53]
        norm_num
    have key := toDouble_eq (n : ℚ) (Nat.log 2 n) m (by exact_mod_cast hne)
      (by rw [abs_of_nonneg (by positivity), zpow_natCast]; exact_mod_cast hlo)
      (by
        rw [abs_of_nonneg (by positivity)]
        have : ((Nat.log 2 n : ℤ) + 1) = ((Nat.log 2 n + 1 : ℕ) : ℤ) := by push_cast; ring
        rw [this, zpow_natCast]; exact_mod_cast hhi)
      (by omega)
      (by rw [hm, roundHalfEven_intCast])
      (by
        rw [← hm, div_mul_cancel₀ _ (by positivity), abs_of_nonneg (by positivity)]
        calc (n : ℚ) ≤ 2 ^ 53 := by exact_mod_cast hn
          _ < 2 ^ 1024 := by norm_num)
    rw [key, ← hm, div_mul_cancel₀ _ (by positivity)]

/-- The number after `2 ^ 53` is not a binary64 value: it rounds back to `2 ^ 53`. -/
theorem toDouble_two_pow_53_add_one : toDouble (2 ^ 53 + 1) = .fin (2 ^ 53) := by
  have := toDouble_eq (2 ^ 53 + 1) 53 (2 ^ 52) (by norm_num) (by norm_num [abs_of_nonneg])
    (by norm_num [abs_of_nonneg]) (by norm_num)
    (roundHalfEven_tie_down _ _ (by norm_num) (by norm_num)) (by norm_num [abs_of_nonneg])
  rw [this]
  norm_num

/-! ## JavaScript comparison and `runIndex++` -/

theorem JSNum.ge_mono (n : JSNum) {a b : ℚ} (hab : b ≤ a) (h : n.ge (.fin a) = true) :
    n.ge (.fin b) = true := by
  cases n with
  | nan => simp [JSNum.ge] at h
  | posInf => simp [JSNum.ge]
  | negInf => simp [JSNum.ge] at h
  | fin q =>
    simp only [JSNum.ge, decide_eq_true_eq] at h ⊢
    linarith

theorem runIndexAfter_zero (start : JSNum) : runIndexAfter 0 start = start := rfl

theorem runIndexAfter_succ (c : Nat) (start : JSNum) :
    runIndexAfter (c + 1) start = runIndexAfter c (start.add (.fin 1)) := by
  simp only [runIndexAfter, Function.iterate_succ_apply]

theorem runIndexAfter_succ_outer (c : Nat) (start : JSNum) :
    runIndexAfter (c + 1) start = (runIndexAfter c start).add (.fin 1) := by
  simp only [runIndexAfter, Function.iterate_succ_apply']

/-- One `runIndex++` on a whole number up to `2 ^ 53`: the next number, except that `2 ^ 53`
stays where it is. -/
theorem add_one_natCast (a : ℕ) (ha : a ≤ 2 ^ 53) :
    (JSNum.fin (a : ℚ)).add (.fin 1) = .fin ((min (a + 1) (2 ^ 53) : ℕ) : ℚ) := by
  show toDouble ((a : ℚ) + 1) = _
  by_cases h : a + 1 ≤ 2 ^ 53
  · rw [Nat.min_eq_left h]
    have := toDouble_natCast (a + 1) h
    push_cast at this ⊢
    exact this
  · have ha53 : a = 2 ^ 53 := by omega
    rw [Nat.min_eq_right (by omega), ha53]
    have := toDouble_two_pow_53_add_one
    push_cast at this ⊢
    exact this

/-- Counting from 1, `runIndex` is `1 + c` after `c` increments until it reaches `2 ^ 53`, where
it stays. -/
theorem runIndexAfter_one (c : Nat) :
    runIndexAfter c (.fin 1) = .fin ((min (1 + c) (2 ^ 53) : ℕ) : ℚ) := by
  induction c with
  | zero => simp [runIndexAfter]
  | succ c ih =>
    rw [runIndexAfter_succ_outer, ih, add_one_natCast _ (Nat.min_le_right _ _)]
    congr 2
    omega

/-! ## The polling loop -/

theorem pollLoop_exit {J : Type} (verification : Nat → Except String Decision) (url : String)
    (body : Obj J) (n : JSNum) (fuel polled : Nat) (s : LoopVars)
    (h : (s.answerProvided == false && n.ge s.runIndex) = false) :
    pollLoop verification url body n fuel polled s = some ([], .ok s) := by
  have hn : ¬ ((s.answerProvided == false && n.ge s.runIndex) = true) := by
    rw [h]; exact Bool.false_ne_true
  cases fuel <;> · unfold pollLoop; rw [if_neg hn]

theorem pollLoop_zero_none {J : Type} (verification : Nat → Except String Decision)
    (url : String) (body : Obj J) (n : JSNum) (polled : Nat) (s : LoopVars)
    (h : (s.answerProvided == false && n.ge s.runIndex) = true) :
    pollLoop verification url body n 0 polled s = none := by
  unfold pollLoop; rw [if_pos h]

theorem pollLoop_error {J : Type} (verification : Nat → Except String Decision) (url : String)
    (body : Obj J) (n : JSNum) (fuel polled : Nat) (s : LoopVars) (m : String)
    (h : (s.answerProvided == false && n.ge s.runIndex) = true)
    (hv : verification (polled + 1) = .error m) :
    pollLoop verification url body n (fuel + 1) polled s =
      some (iteration url body n s, .error m) := by
  unfold pollLoop; rw [if_pos h]; simp only [hv]; rfl

theorem pollLoop_ok {J : Type} (verification : Nat → Except String Decision) (url : String)
    (body : Obj J) (n : JSNum) (fuel polled : Nat) (s : LoopVars) (data : Decision)
    (h : (s.answerProvided == false && n.ge s.runIndex) = true)
    (hv : verification (polled + 1) = .ok data) :
    pollLoop verification url body n (fuel + 1) polled s =
      (pollLoop verification url body n fuel (polled + 1) (advance s data)).map
        fun p => (iteration url body n s ++ p.1, p.2) := by
  conv_lhs => unfold pollLoop
  rw [if_pos h]
  simp only [hv]
  show (match pollLoop verification url body n fuel (polled + 1) (advance s data) with
    | none => none
    | some (rest, r) => some (iteration url body n s ++ rest, r)) = _
  cases pollLoop verification url body n fuel (polled + 1) (advance s data) with
  | none => rfl
  | some p => rfl

theorem loopFacts_exit {J : Type} (verification : Nat → Except String Decision) (url : String)
    (body : Obj J) (n : JSNum) (polled : Nat) (s : LoopVars)
    (h : (s.answerProvided == false && n.ge s.runIndex) = false) :
    LoopFacts verification url body n polled s [] (.ok s) := by
  refine ⟨rfl, rfl, fun _ _ => rfl, rfl, rfl, ?_, ?_, ?_, ?_⟩
  · intro j _ hj; simp [postsTo] at hj
  · intro hc; simp [postsTo] at hc
  · intro m hm; cases hm
  · intro s1 hs1
    cases hs1
    refine ⟨rfl, fun _ => rfl, ?_, ?_⟩
    · intro hc; simp [postsTo] at hc
    · intro ha
      simpa [ha] using h

theorem pollLoop_facts {J : Type} (verification : Nat → Except String Decision) (url : String)
    (body : Obj J) (n : JSNum) :
    ∀ (fuel polled : Nat) (s : LoopVars) (t : List (Event J)) (r : Except String LoopVars),
      pollLoop verification url body n fuel polled s = some (t, r) →
      LoopFacts verification url body n polled s t r := by
  intro fuel
  induction fuel with
  | zero =>
    intro polled s t r h
    by_cases hc : (s.answerProvided == false && n.ge s.runIndex) = true
    · rw [pollLoop_zero_none _ _ _ _ _ _ hc] at h; cases h
    · have hc2 : (s.answerProvided == false && n.ge s.runIndex) = false := by
        simpa using hc
      rw [pollLoop_exit _ _ _ _ _ _ _ hc2] at h
      cases h
      exact loopFacts_exit _ _ _ _ _ _ hc2
  | succ fuel ih =>
    intro polled s t r h
    by_cases hc : (s.answerProvided == false && n.ge s.runIndex) = true
    · have hA : s.answerProvided = false := by
        simp only [Bool.and_eq_true, beq_iff_eq] at hc; exact hc.1
      have hG : n.ge s.runIndex = true := by
        simp only [Bool.and_eq_true, beq_iff_eq] at hc; exact hc.2
      cases hv : verification (polled + 1) with
      | error m =>
        rw [pollLoop_error _ _ _ _ _ _ _ m hc hv] at h
        cases h
        refine ⟨by simp [failures, iteration], by simp [postsTo, iteration], ?_,
          by simp [sleepCount, postsTo, iteration],
          by simp [logs, postsTo, iteration, List.range_succ, runIndexAfter], ?_, ?_, ?_, ?_⟩
        · intro u hu; simp [postsTo, iteration, Ne.symm hu]
        · intro j h1 h2; simp [postsTo, iteration] at h2; omega
        · intro _; simp [postsTo, iteration, hA, hG, runIndexAfter]
        · intro m1 hm1; cases hm1; simp [postsTo, iteration, hv]
        · intro s1 hs1; cases hs1
      | ok data =>
        rw [pollLoop_ok _ _ _ _ _ _ _ data hc hv] at h
        cases hrec : pollLoop verification url body n fuel (polled + 1) (advance s data) with
        | none => rw [hrec] at h; cases h
        | some res =>
          obtain ⟨rest, r1⟩ := res
          rw [hrec] at h
          cases h
          have F := ih _ _ _ _ hrec
          have hlen : (postsTo url (iteration url body n s ++ rest)).length =
              (postsTo url rest).length + 1 := by
            simp [postsTo, iteration]
          have hpost : postsTo url (iteration url body n s ++ rest) = body :: postsTo url rest := by
            simp [postsTo, iteration]
          have hadv : (advance s data).runIndex = s.runIndex.add (.fin 1) := rfl
          refine ⟨?_, ?_, ?_, ?_, ?_, ?_, ?_, ?_, ?_⟩
          · simpa [failures, iteration] using F.noFailure
          · rw [hlen, List.replicate_succ, hpost, ← F.posts]
          · intro u hu
            simpa [postsTo, iteration, Ne.symm hu] using F.otherPosts u hu
          · rw [hlen]
            simpa [sleepCount, iteration] using F.sleeps
          · rw [hlen, List.range_succ_eq_map]
            have hlog : logs (iteration url body n s ++ rest) =
                checkingLine s.runIndex n :: logs rest := by
              simp [logs, iteration]
            rw [hlog, F.lines]
            simp only [List.map_cons, List.map_map, runIndexAfter_zero]
            congr 1
          · intro j h1 h2
            rw [hlen] at h2
            by_cases hj : j = 1
            · subst hj
              have hpos : 1 ≤ (postsTo url rest).length := by omega
              have := (F.entered hpos).1
              refine ⟨data, hv, ?_⟩
              cases hd : data.actioned
              · rfl
              · simp [advance, hd] at this
            · obtain ⟨d, hd1, hd2⟩ := F.earlier (j - 1) (by omega) (by omega)
              refine ⟨d, ?_, hd2⟩
              rw [← hd1]; congr 1; omega
          · intro _
            refine ⟨hA, ?_⟩
            rw [hlen]
            by_cases hpos : 1 ≤ (postsTo url rest).length
            · have := (F.entered hpos).2
              rw [hadv, ← runIndexAfter_succ] at this
              rw [← this]; congr 2; omega
            · have h0 : (postsTo url rest).length = 0 := by omega
              rw [h0]; simpa [runIndexAfter] using hG
          · intro m hm
            obtain ⟨h1, h2⟩ := F.thrown m hm
            rw [hlen]
            refine ⟨by omega, ?_⟩
            rw [← h2]; congr 1; omega
          · intro s1 hs1
            obtain ⟨e1, e2, e3, e4⟩ := F.exited s1 hs1
            rw [hlen]
            refine ⟨?_, ?_, ?_, e4⟩
            · rw [e1, hadv, runIndexAfter_succ]
            · intro h0; omega
            · intro _
              by_cases hpos : 1 ≤ (postsTo url rest).length
              · obtain ⟨f1, f2⟩ := e3 hpos
                refine ⟨?_, f2⟩
                rw [← f1]; congr 1; omega
              · have h0 : (postsTo url rest).length = 0 := by omega
                have := e2 h0
                subst this
                rw [h0]
                refine ⟨by simpa [advance] using hv, ?_⟩
                simp only [advance, hA]
                cases data.actioned <;> rfl
    · have hc2 : (s.answerProvided == false && n.ge s.runIndex) = false := by
        simpa using hc
      rw [pollLoop_exit _ _ _ _ _ _ _ hc2] at h
      cases h
      exact loopFacts_exit _ _ _ _ _ _ hc2

/-- When the guard is false at the value `runIndex` has after `fuel` increments, `fuel` is enough
for the loop. -/
theorem pollLoop_total_of_budget {J : Type} (verification : Nat → Except String Decision)
    (url : String) (body : Obj J) (n : JSNum) :
    ∀ (fuel polled : Nat) (s : LoopVars),
      n.ge (runIndexAfter fuel s.runIndex) = false →
      ∃ res, pollLoop verification url body n fuel polled s = some res := by
  intro fuel
  induction fuel with
  | zero =>
    intro polled s h
    refine ⟨([], .ok s), pollLoop_exit _ _ _ _ _ _ _ ?_⟩
    rw [runIndexAfter_zero] at h
    simp [h]
  | succ fuel ih =>
    intro polled s h
    by_cases hc : (s.answerProvided == false && n.ge s.runIndex) = true
    · cases hv : verification (polled + 1) with
      | error m => exact ⟨_, pollLoop_error _ _ _ _ _ _ _ m hc hv⟩
      | ok data =>
        obtain ⟨res, hres⟩ := ih (polled + 1) (advance s data) (by
          rw [← h, runIndexAfter_succ]; rfl)
        exact ⟨_, by rw [pollLoop_ok _ _ _ _ _ _ _ data hc hv, hres]; rfl⟩
    · exact ⟨_, pollLoop_exit _ _ _ _ _ _ _ (by simpa using hc)⟩

/-- If the `k`-th call from now is rejected or returns an actioned decision, fuel `k` is enough
for the loop. -/
theorem pollLoop_total_of_decisive {J : Type} (verification : Nat → Except String Decision)
    (url : String) (body : Obj J) (n : JSNum) :
    ∀ (k fuel polled : Nat) (s : LoopVars), 1 ≤ k → k ≤ fuel →
      (∀ d, verification (polled + k) = .ok d → d.actioned = true) →
      ∃ res, pollLoop verification url body n fuel polled s = some res := by
  intro k
  induction k with
  | zero => intro fuel polled s h; omega
  | succ k ih =>
    intro fuel polled s _ hf hd
    obtain ⟨fuel, rfl⟩ : ∃ f, fuel = f + 1 := ⟨fuel - 1, by omega⟩
    by_cases hc : (s.answerProvided == false && n.ge s.runIndex) = true
    · cases hv : verification (polled + 1) with
      | error m => exact ⟨_, pollLoop_error _ _ _ _ _ _ _ m hc hv⟩
      | ok data =>
        rw [pollLoop_ok _ _ _ _ _ _ _ data hc hv]
        by_cases hk : k = 0
        · subst hk
          have hact := hd data hv
          rw [pollLoop_exit _ _ _ _ _ _ _ (by simp [advance, hact])]
          exact ⟨_, rfl⟩
        · obtain ⟨res, hres⟩ := ih fuel (polled + 1) (advance s data) (by omega) (by omega)
            (by intro d hd1; apply hd d; rw [← hd1]; congr 1; omega)
          rw [hres]
          exact ⟨_, rfl⟩
    · exact ⟨_, pollLoop_exit _ _ _ _ _ _ _ (by simpa using hc)⟩

/-- With a budget of `2 ^ 53` or more and no call ever rejected or actioned, the loop never
exits: `runIndex` stops growing at `2 ^ 53` and the guard stays true. -/
theorem pollLoop_none_of_saturated {J : Type} (verification : Nat → Except String Decision)
    (url : String) (body : Obj J) (n : JSNum)
    (hbudget : n.ge (.fin ((2 ^ 53 : ℕ) : ℚ)) = true)
    (hall : ∀ j, 1 ≤ j → ∃ d, verification j = .ok d ∧ d.actioned = false) :
    ∀ (fuel polled : Nat) (s : LoopVars) (a : ℕ), s.answerProvided = false →
      s.runIndex = .fin (a : ℚ) → a ≤ 2 ^ 53 →
      pollLoop verification url body n fuel polled s = none := by
  intro fuel
  induction fuel with
  | zero =>
    intro polled s a hA hr ha
    apply pollLoop_zero_none
    rw [hA, hr, JSNum.ge_mono n (by exact_mod_cast ha) hbudget]
    rfl
  | succ fuel ih =>
    intro polled s a hA hr ha
    have hc : (s.answerProvided == false && n.ge s.runIndex) = true := by
      rw [hA, hr, JSNum.ge_mono n (by exact_mod_cast ha) hbudget]
      rfl
    obtain ⟨d, hd, hd2⟩ := hall (polled + 1) (by omega)
    rw [pollLoop_ok _ _ _ _ _ _ _ d hc hd,
      ih (polled + 1) (advance s d) (min (a + 1) (2 ^ 53)) (by simp [advance, hd2, hA])
        (by simp only [advance, hr]; exact add_one_natCast a ha) (Nat.min_le_right _ _)]
    rfl

/-- The loop stops at the first call that is rejected or actioned, when the budget reaches it. -/
theorem LoopFacts.count_of_decisive {J : Type} {verification : Nat → Except String Decision}
    {url : String} {body : Obj J} {n : JSNum} {t : List (Event J)} {r : Except String LoopVars}
    (F : LoopFacts verification url body n 0 initialVars t r) (k : Nat) (hk : 1 ≤ k)
    (hbudget : n.ge (.fin (k : ℚ)) = true)
    (hbefore : ∀ j, 1 ≤ j → j < k → ∃ d, verification j = .ok d ∧ d.actioned = false)
    (hat : ∀ d, verification k = .ok d → d.actioned = true) :
    (postsTo url t).length = k := by
  rcases Nat.lt_trichotomy (postsTo url t).length k with hlt | heq | hgt
  · exfalso
    cases r with
    | error m =>
      obtain ⟨h1, h2⟩ := F.thrown m rfl
      obtain ⟨d, hd, _⟩ := hbefore _ h1 hlt
      rw [Nat.zero_add] at h2
      rw [h2] at hd
      cases hd
    | ok s1 =>
      obtain ⟨e1, e2, e3, e4⟩ := F.exited s1 rfl
      have hA : s1.answerProvided = false := by
        by_cases hpos : 1 ≤ (postsTo url t).length
        · obtain ⟨f1, f2⟩ := e3 hpos
          obtain ⟨d, hd, hd2⟩ := hbefore _ hpos hlt
          rw [Nat.zero_add] at f1
          rw [f1] at hd
          cases hd
          rw [f2, hd2]
        · rw [e2 (by omega)]; rfl
      have hge := e4 hA
      rw [e1] at hge
      simp only [initialVars, runIndexAfter_one] at hge
      have hmono := JSNum.ge_mono n (show ((min (1 + (postsTo url t).length) (2 ^ 53) : ℕ) : ℚ)
          ≤ (k : ℚ) by
        exact_mod_cast (Nat.min_le_left _ _).trans (by omega)) hbudget
      rw [hge] at hmono
      cases hmono
  · exact heq
  · exfalso
    obtain ⟨d, hd, hd2⟩ := F.earlier k hk hgt
    rw [Nat.zero_add] at hd
    have := hat d hd
    rw [hd2] at this
    cases this

/-- When no call that the budget allows is rejected or actioned, the loop exits unanswered
exactly when the budget is used up. -/
theorem LoopFacts.of_unactioned {J : Type} {verification : Nat → Except String Decision}
    {url : String} {body : Obj J} {n : JSNum} {t : List (Event J)} {r : Except String LoopVars}
    (F : LoopFacts verification url body n 0 initialVars t r)
    (hall : ∀ j, 1 ≤ j → n.ge (.fin ((min j (2 ^ 53) : ℕ) : ℚ)) = true →
      ∃ d, verification j = .ok d ∧ d.actioned = false) :
    (∃ s1, r = .ok s1 ∧ s1.answerProvided = false) ∧
    n.ge (.fin ((min ((postsTo url t).length + 1) (2 ^ 53) : ℕ) : ℚ)) = false ∧
    (1 ≤ (postsTo url t).length →
      n.ge (.fin ((min (postsTo url t).length (2 ^ 53) : ℕ) : ℚ)) = true) := by
  have hreach : 1 ≤ (postsTo url t).length →
      n.ge (.fin ((min (postsTo url t).length (2 ^ 53) : ℕ) : ℚ)) = true := by
    intro hpos
    have := (F.entered hpos).2
    simp only [initialVars, runIndexAfter_one] at this
    rw [← this]; congr 4; omega
  cases r with
  | error m =>
    exfalso
    obtain ⟨h1, h2⟩ := F.thrown m rfl
    obtain ⟨d, hd, _⟩ := hall _ h1 (hreach h1)
    rw [Nat.zero_add] at h2
    rw [h2] at hd
    cases hd
  | ok s1 =>
    obtain ⟨e1, e2, e3, e4⟩ := F.exited s1 rfl
    have hA : s1.answerProvided = false := by
      by_cases hpos : 1 ≤ (postsTo url t).length
      · obtain ⟨f1, f2⟩ := e3 hpos
        obtain ⟨d, hd, hd2⟩ := hall _ hpos (hreach hpos)
        rw [Nat.zero_add] at f1
        rw [f1] at hd
        cases hd
        rw [f2, hd2]
      · rw [e2 (by omega)]; rfl
    refine ⟨⟨s1, rfl, hA⟩, ?_, hreach⟩
    have := e4 hA
    rw [e1] at this
    simp only [initialVars, runIndexAfter_one] at this
    rw [← this]; congr 4; omega

/-! ## The whole run -/

theorem run_parse_error_first {J : Type} (w : World J) (fuel : Nat) (m : String)
    (h1 : w.jsonParse (w.getInput "deployment-environments") = .error m) :
    verifyAuthorization w fuel = some [.setFailed m] := by
  simp only [verifyAuthorization, tryBlock, h1, List.nil_append]

theorem run_parse_error_second {J : Type} (w : World J) (fuel : Nat) (de : J) (m : String)
    (h1 : w.jsonParse (w.getInput "deployment-environments") = .ok de)
    (h2 : w.jsonParse (w.getInput "whitelisted-environments") = .error m) :
    verifyAuthorization w fuel = some [.setFailed m] := by
  simp only [verifyAuthorization, tryBlock, h1, h2, List.nil_append]

theorem run_date_error {J : Type} (w : World J) (fuel : Nat) (de we : J) (m : String)
    (h1 : w.jsonParse (w.getInput "deployment-environments") = .ok de)
    (h2 : w.jsonParse (w.getInput "whitelisted-environments") = .ok we)
    (h3 : w.toLocaleString (w.getInput "timezone") = .error m) :
    verifyAuthorization w fuel = some (secretEvents w ++ [.setFailed m]) := by
  simp only [verifyAuthorization, tryBlock, h1, h2, h3, secretEvents]

theorem run_submission_error {J : Type} (w : World J) (fuel : Nat) (de we : J)
    (date m : String)
    (h1 : w.jsonParse (w.getInput "deployment-environments") = .ok de)
    (h2 : w.jsonParse (w.getInput "whitelisted-environments") = .ok we)
    (h3 : w.toLocaleString (w.getInput "timezone") = .ok date)
    (h4 : w.submission = .error m) :
    verifyAuthorization w fuel = some (prelude w de we date ++ [.setFailed m]) := by
  simp only [verifyAuthorization, tryBlock, h1, h2, h3, h4, prelude, secretEvents, submissionUrl,
    submittedBody]

theorem run_submitted {J : Type} (w : World J) (fuel : Nat) (de we : J) (date : String)
    (h1 : w.jsonParse (w.getInput "deployment-environments") = .ok de)
    (h2 : w.jsonParse (w.getInput "whitelisted-environments") = .ok we)
    (h3 : w.toLocaleString (w.getInput "timezone") = .ok date)
    (h4 : w.submission = .ok ()) :
    verifyAuthorization w fuel =
      (polling w fuel).map fun p =>
        prelude w de we date ++ p.1 ++ [conclusion (w.getInput "timeout") p.2] := by
  simp only [verifyAuthorization, tryBlock, h1, h2, h3, h4, polling, verificationUrl]
  cases pollLoop w.verification (w.getInput "authorization-server-url" ++ "?type=verify_authorization")
      (verificationBody w.uuidv4) (numberOfRuns (w.toNumber (w.getInput "timeout"))) fuel 0
      initialVars with
  | none => rfl
  | some p =>
    obtain ⟨t, r⟩ := p
    cases r with
    | error m => rfl
    | ok s =>
      simp only [Option.map_some', conclusion]
      by_cases ha : (s.answerProvided == true) = true
      · by_cases hb : s.response.authorized = true
        · simp only [ha, hb, if_true]; rfl
        · simp only [ha, hb, if_true, if_false]; rfl
      · simp only [ha, if_false]; rfl

theorem failures_prelude {J : Type} (w : World J) (de we : J) (date : String) :
    failures (prelude w de we date) = [] := by
  simp [prelude, secretEvents, failures]

theorem logs_prelude {J : Type} (w : World J) (de we : J) (date : String) :
    logs (prelude w de we date) = [] := by
  simp [prelude, secretEvents, logs]

theorem sleepCount_prelude {J : Type} (w : World J) (de we : J) (date : String) :
    sleepCount (prelude w de we date) = 0 := by
  simp [prelude, secretEvents, sleepCount]

theorem polls_prelude {J : Type} (w : World J) (de we : J) (date : String) :
    postsTo (verificationUrl w) (prelude w de we date) = [] := by
  simp [prelude, secretEvents, postsTo, submissionUrl_ne_verificationUrl w]

theorem submissions_prelude {J : Type} (w : World J) (de we : J) (date : String) :
    postsTo (submissionUrl w) (prelude w de we date) = [submittedBody w de we date] := by
  simp [prelude, secretEvents, postsTo]

theorem posts_conclusion {J : Type} (url timeout : String) (r : Except String LoopVars) :
    postsTo url [conclusion (J := J) timeout r] = [] := by
  cases r with
  | error m => simp [conclusion, postsTo]
  | ok s =>
    simp only [conclusion]
    split
    · split <;> simp [postsTo]
    · simp [postsTo]

theorem sleepCount_conclusion {J : Type} (timeout : String) (r : Except String LoopVars) :
    sleepCount [conclusion (J := J) timeout r] = 0 := by
  cases r with
  | error m => simp [conclusion, sleepCount]
  | ok s =>
    simp only [conclusion]
    split
    · split <;> simp [sleepCount]
    · simp [sleepCount]

/-- What a run that got past the submission looks like. -/
theorem run_submitted_facts {J : Type} (w : World J) (fuel : Nat) (de we : J) (date : String)
    (h1 : w.jsonParse (w.getInput "deployment-environments") = .ok de)
    (h2 : w.jsonParse (w.getInput "whitelisted-environments") = .ok we)
    (h3 : w.toLocaleString (w.getInput "timezone") = .ok date)
    (h4 : w.submission = .ok ()) (trace : List (Event J))
    (h : verifyAuthorization w fuel = some trace) :
    ∃ t r, polling w fuel = some (t, r) ∧
      trace = prelude w de we date ++ t ++ [conclusion (w.getInput "timeout") r] ∧
      LoopFacts w.verification (verificationUrl w) (verificationBody w.uuidv4)
        (numberOfRuns (w.toNumber (w.getInput "timeout"))) 0 initialVars t r ∧
      pollCount w trace = (postsTo (verificationUrl w) t).length ∧
      failures trace = failures [conclusion (J := J) (w.getInput "timeout") r] ∧
      sleepCount trace = (postsTo (verificationUrl w) t).length := by
  rw [run_submitted w fuel de we date h1 h2 h3 h4] at h
  cases hp : polling w fuel with
  | none => rw [hp] at h; cases h
  | some p =>
    obtain ⟨t, r⟩ := p
    rw [hp] at h
    simp only [Option.map_some', Option.some.injEq] at h
    have F := pollLoop_facts _ _ _ _ _ _ _ _ _ hp
    refine ⟨t, r, rfl, h.symm, F, ?_, ?_, ?_⟩
    · rw [← h, pollCount, postsTo_append, postsTo_append, polls_prelude, posts_conclusion]
      simp
    · rw [← h, failures_append, failures_append, failures_prelude, F.noFailure]
      simp
    · rw [← h, sleepCount_append, sleepCount_append, sleepCount_prelude, sleepCount_conclusion,
        F.sleeps]
      simp

/-- Every input either parses its two lists, renders the date and reaches a submission outcome,
or fails before the submission call. -/
theorem run_before_polling {J : Type} (w : World J) (fuel : Nat) :
    (∃ m pre, verifyAuthorization w fuel = some (pre ++ [.setFailed m]) ∧ failures pre = [] ∧
      logs pre = [] ∧ sleepCount pre = 0 ∧ postsTo (verificationUrl w) pre = []) ∨
    (∃ de we date, w.jsonParse (w.getInput "deployment-environments") = .ok de ∧
      w.jsonParse (w.getInput "whitelisted-environments") = .ok we ∧
      w.toLocaleString (w.getInput "timezone") = .ok date ∧ w.submission = .ok ()) := by
  cases h1 : w.jsonParse (w.getInput "deployment-environments") with
  | error m => exact .inl ⟨m, [], run_parse_error_first w fuel m h1, rfl, rfl, rfl, rfl⟩
  | ok de =>
    cases h2 : w.jsonParse (w.getInput "whitelisted-environments") with
    | error m => exact .inl ⟨m, [], run_parse_error_second w fuel de m h1 h2, rfl, rfl, rfl, rfl⟩
    | ok we =>
      cases h3 : w.toLocaleString (w.getInput "timezone") with
      | error m =>
        exact .inl ⟨m, secretEvents w, run_date_error w fuel de we m h1 h2 h3, rfl, rfl, rfl, rfl⟩
      | ok date =>
        cases h4 : w.submission with
        | error m =>
          exact .inl ⟨m, prelude w de we date, run_submission_error w fuel de we date m h1 h2 h3 h4,
            failures_prelude .., logs_prelude .., sleepCount_prelude .., polls_prelude ..⟩
        | ok u => exact .inr ⟨de, we, date, rfl, rfl, rfl, rfl⟩

/-- A run whose budget is `NaN`, `-Infinity` or a finite value below `2 ^ 53` returns, given
enough fuel. -/
theorem verifyAuthorization_total {J : Type} (w : World J)
    (hbudget : numberOfRuns (w.toNumber (w.getInput "timeout")) = .nan ∨
      numberOfRuns (w.toNumber (w.getInput "timeout")) = .negInf ∨
      ∃ x : ℚ, numberOfRuns (w.toNumber (w.getInput "timeout")) = .fin x ∧ x < 2 ^ 53) :
    ∃ fuel trace, verifyAuthorization w fuel = some trace := by
  have key : ∃ fuel res, polling w fuel = some res := by
    unfold polling
    rcases hbudget with hn | hn | ⟨x, hn, hx⟩
    · exact ⟨0, pollLoop_total_of_budget _ _ _ _ 0 0 initialVars (by rw [hn]; rfl)⟩
    · exact ⟨0, pollLoop_total_of_budget _ _ _ _ 0 0 initialVars (by
        rw [hn]; simp [JSNum.ge, initialVars, runIndexAfter])⟩
    · refine ⟨⌈x⌉₊, pollLoop_total_of_budget _ _ _ _ _ 0 initialVars ?_⟩
      rw [hn]
      simp only [initialVars, runIndexAfter_one, JSNum.ge, decide_eq_false_iff_not, not_le]
      rcases Nat.le_total (1 + ⌈x⌉₊) (2 ^ 53) with h | h
      · rw [Nat.min_eq_left h]
        have := Nat.le_ceil x
        push_cast
        linarith
      · rw [Nat.min_eq_right h]
        push_cast
        exact hx
  obtain ⟨fuel, res, hres⟩ := key
  rcases run_before_polling w fuel with ⟨m, pre, h, _⟩ | ⟨de, we, date, h1, h2, h3, h4⟩
  · exact ⟨fuel, _, h⟩
  · exact ⟨fuel, _, by rw [run_submitted w fuel de we date h1 h2 h3 h4, hres]; rfl⟩

/-! ## The value of `numberOfRuns` -/

/-- The budget is the rounded quotient by 5 of the rounded product by 60. -/
theorem numberOfRuns_of_product (q a : ℚ) (h : toDouble (q * 60) = .fin a) :
    numberOfRuns (.fin q) = toDouble (a / 5) := by
  simp [numberOfRuns, JSNum.mul, JSNum.div, DELAY_BETWEEN_ATTEMPTS_IN_SECONDS, h]

/-- For a whole number of minutes `m` with `60 * m` up to `2 ^ 53` both operations are exact and
the budget is `12 * m`. -/
theorem numberOfRuns_natCast (m : ℕ) (hm : 60 * m ≤ 2 ^ 53) :
    numberOfRuns (.fin (m : ℚ)) = .fin ((12 * m : ℕ) : ℚ) := by
  have h1 : toDouble ((m : ℚ) * 60) = .fin ((60 * m : ℕ) : ℚ) := by
    have := toDouble_natCast (60 * m) hm
    push_cast at this ⊢
    rw [mul_comm]; exact this
  rw [numberOfRuns_of_product _ _ h1]
  have h2 := toDouble_natCast (12 * m) (by omega)
  have e : ((60 * m : ℕ) : ℚ) / 5 = ((12 * m : ℕ) : ℚ) := by push_cast; ring
  rw [e, h2]

theorem numberOfRuns_zero : numberOfRuns (.fin 0) = .fin 0 := by
  simpa using numberOfRuns_natCast 0 (by norm_num)

theorem numberOfRuns_one : numberOfRuns (.fin 1) = .fin 12 := by
  simpa using numberOfRuns_natCast 1 (by norm_num)

theorem numberOfRuns_five : numberOfRuns (.fin 5) = .fin 60 := by
  have := numberOfRuns_natCast 5 (by norm_num)
  norm_num at this
  exact this

/-- The budget for 0.125 minutes is 1.5. -/
theorem numberOfRuns_eighth : numberOfRuns (.fin (1 / 8)) = .fin (3 / 2) := by
  have h1 : toDouble ((1 / 8 : ℚ) * 60) = .fin (15 / 2) := by
    rw [toDouble_eq ((1 / 8 : ℚ) * 60) 2 (15 * 2 ^ 49) (by norm_num)
      (by norm_num [abs_of_nonneg]) (by norm_num [abs_of_nonneg]) (by norm_num)
      (roundHalfEven_of_near _ _ (by norm_num) (by norm_num)) (by norm_num [abs_of_nonneg])]
    norm_num
  rw [numberOfRuns_of_product _ _ h1,
    toDouble_eq ((15 / 2 : ℚ) / 5) 0 (3 * 2 ^ 51) (by norm_num)
      (by norm_num [abs_of_nonneg]) (by norm_num [abs_of_nonneg]) (by norm_num)
      (roundHalfEven_of_near _ _ (by norm_num) (by norm_num)) (by norm_num [abs_of_nonneg])]
  norm_num

/-- The budget for 0.0625 minutes is 0.75. -/
theorem numberOfRuns_sixteenth : numberOfRuns (.fin (1 / 16)) = .fin (3 / 4) := by
  have h1 : toDouble ((1 / 16 : ℚ) * 60) = .fin (15 / 4) := by
    rw [toDouble_eq ((1 / 16 : ℚ) * 60) 1 (15 * 2 ^ 49) (by norm_num)
      (by norm_num [abs_of_nonneg]) (by norm_num [abs_of_nonneg]) (by norm_num)
      (roundHalfEven_of_near _ _ (by norm_num) (by norm_num)) (by norm_num [abs_of_nonneg])]
    norm_num
  rw [numberOfRuns_of_product _ _ h1,
    toDouble_eq ((15 / 4 : ℚ) / 5) (-1) (3 * 2 ^ 51) (by norm_num)
      (by norm_num [abs_of_nonneg]) (by norm_num [abs_of_nonneg]) (by norm_num)
      (roundHalfEven_of_near _ _ (by norm_num) (by norm_num)) (by norm_num [abs_of_nonneg])]
  norm_num

/-- The budget for the binary64 value written 0.08333333333333333 is 1: the product by 60 rounds
up to 5. -/
theorem numberOfRuns_twelfth : numberOfRuns (.fin (6004799503160661 / 2 ^ 56)) = .fin 1 := by
  have h1 : toDouble ((6004799503160661 / 2 ^ 56 : ℚ) * 60) = .fin 5 := by
    rw [toDouble_eq ((6004799503160661 / 2 ^ 56 : ℚ) * 60) 2 (5 * 2 ^ 50) (by norm_num)
      (by norm_num [abs_of_nonneg]) (by norm_num [abs_of_nonneg]) (by norm_num)
      (roundHalfEven_of_near _ _ (by norm_num) (by norm_num)) (by norm_num [abs_of_nonneg])]
    norm_num
  rw [numberOfRuns_of_product _ _ h1]
  have := toDouble_natCast 1 (by norm_num)
  norm_num at this ⊢
  exact this

/-- The budget for 155754737307298.75 minutes is 1869056847687584.75: the product by 60, the
odd number 9345284238437925, rounds down to the even 9345284238437924. -/
theorem numberOfRuns_large :
    numberOfRuns (.fin (623018949229195 / 4)) = .fin (7476227390750339 / 4) := by
  have h1 : toDouble ((623018949229195 / 4 : ℚ) * 60) = .fin 9345284238437924 := by
    rw [toDouble_eq ((623018949229195 / 4 : ℚ) * 60) 53 4672642119218962 (by norm_num)
      (by norm_num [abs_of_nonneg]) (by norm_num [abs_of_nonneg]) (by norm_num)
      (roundHalfEven_tie_down _ _ (by norm_num) (by norm_num)) (by norm_num [abs_of_nonneg])]
    norm_num
  rw [numberOfRuns_of_product _ _ h1,
    toDouble_eq ((9345284238437924 : ℚ) / 5) 50 7476227390750339 (by norm_num)
      (by norm_num [abs_of_nonneg]) (by norm_num [abs_of_nonneg]) (by norm_num)
      (roundHalfEven_of_near _ _ (by norm_num) (by norm_num)) (by norm_num [abs_of_nonneg])]
  norm_num

/-- The budget for the whole number 647449902317575 is 7769398827810899, one less than twelve
times the timeout. -/
theorem numberOfRuns_large_whole :
    numberOfRuns (.fin 647449902317575) = .fin 7769398827810899 := by
  have h1 : toDouble ((647449902317575 : ℚ) * 60) = .fin 38846994139054496 := by
    rw [toDouble_eq ((647449902317575 : ℚ) * 60) 55 4855874267381812 (by norm_num)
      (by norm_num [abs_of_nonneg]) (by norm_num [abs_of_nonneg]) (by norm_num)
      (roundHalfEven_tie_down _ _ (by norm_num) (by norm_num)) (by norm_num [abs_of_nonneg])]
    norm_num
  rw [numberOfRuns_of_product _ _ h1,
    toDouble_eq ((38846994139054496 : ℚ) / 5) 52 7769398827810899 (by norm_num)
      (by norm_num [abs_of_nonneg]) (by norm_num [abs_of_nonneg]) (by norm_num)
      (roundHalfEven_of_near _ _ (by norm_num) (by norm_num)) (by norm_num [abs_of_nonneg])]
  norm_num

/-- The budget for a timeout of `10 ^ 15` minutes is `12 * 10 ^ 15`, above `2 ^ 53`. -/
theorem numberOfRuns_huge :
    numberOfRuns (.fin 1000000000000000) = .fin 12000000000000000 := by
  have h1 : toDouble ((1000000000000000 : ℚ) * 60) = .fin 60000000000000000 := by
    rw [toDouble_eq ((1000000000000000 : ℚ) * 60) 55 7500000000000000 (by norm_num)
      (by norm_num [abs_of_nonneg]) (by norm_num [abs_of_nonneg]) (by norm_num)
      (roundHalfEven_of_near _ _ (by norm_num) (by norm_num)) (by norm_num [abs_of_nonneg])]
    norm_num
  rw [numberOfRuns_of_product _ _ h1,
    toDouble_eq ((60000000000000000 : ℚ) / 5) 53 6000000000000000 (by norm_num)
      (by norm_num [abs_of_nonneg]) (by norm_num [abs_of_nonneg]) (by norm_num)
      (roundHalfEven_of_near _ _ (by norm_num) (by norm_num)) (by norm_num [abs_of_nonneg])]
  norm_num

/-! ## Runs by scenario -/

/-- A run whose submission succeeds, whose first `k - 1` polls return unactioned decisions, whose
budget reaches `k`, and whose `k`-th poll is rejected or actioned: it returns with fuel `k`,
after exactly `k` polls and `k` sleeps, and ends according to the `k`-th poll. -/
theorem run_decisive {J : Type} (w : World J) (k : Nat) (hs : SubmissionSucceeds w)
    (hk : 1 ≤ k)
    (hbudget : (numberOfRuns (w.toNumber (w.getInput "timeout"))).ge (.fin (k : ℚ)) = true)
    (hbefore : ∀ j, 1 ≤ j → j < k → ∃ d, w.verification j = .ok d ∧ d.actioned = false)
    (hat : ∀ d, w.verification k = .ok d → d.actioned = true) (fuel : Nat) (hfuel : k ≤ fuel) :
    ∃ trace r, verifyAuthorization w fuel = some trace ∧ pollCount w trace = k ∧
      sleepCount trace = k ∧
      failures trace = failures [conclusion (J := J) (w.getInput "timeout") r] ∧
      (∀ m, r = .error m → w.verification k = .error m) ∧
      (∀ s1, r = .ok s1 → w.verification k = .ok s1.response ∧ s1.answerProvided = true) := by
  obtain ⟨⟨de, h1⟩, ⟨we, h2⟩, ⟨date, h3⟩, h4⟩ := hs
  obtain ⟨res, hres⟩ := pollLoop_total_of_decisive w.verification (verificationUrl w)
    (verificationBody (J := J) w.uuidv4) (numberOfRuns (w.toNumber (w.getInput "timeout")))
    k fuel 0 initialVars hk hfuel (by rw [Nat.zero_add]; exact hat)
  have hrun := run_submitted w fuel de we date h1 h2 h3 h4
  rw [show polling w fuel = some res from hres, Option.map_some'] at hrun
  obtain ⟨t, r, _, _, F, hcount, hfail, hsleep⟩ :=
    run_submitted_facts w fuel de we date h1 h2 h3 h4 _ hrun
  have hc := F.count_of_decisive k hk hbudget hbefore hat
  refine ⟨_, r, hrun, by rw [hcount, hc], by rw [hsleep, hc], hfail, ?_, ?_⟩
  · intro m hm
    have := (F.thrown m hm).2
    rwa [Nat.zero_add, hc] at this
  · intro s1 hs1
    obtain ⟨_, _, e3, _⟩ := F.exited s1 hs1
    obtain ⟨f1, f2⟩ := e3 (by omega)
    rw [Nat.zero_add, hc] at f1
    exact ⟨f1, by rw [f2]; exact hat _ f1⟩

/-- A run whose submission succeeds and whose polls within the budget all return unactioned
decisions, with fuel that the budget does not exceed: it returns, having polled as long as the
budget allowed, and ends with the timed-out failure. -/
theorem run_unactioned {J : Type} (w : World J) (hs : SubmissionSucceeds w)
    (hall : ∀ j, 1 ≤ j →
      (numberOfRuns (w.toNumber (w.getInput "timeout"))).ge
        (.fin ((min j (2 ^ 53) : ℕ) : ℚ)) = true →
      ∃ d, w.verification j = .ok d ∧ d.actioned = false) (fuel : Nat)
    (hfuel : (numberOfRuns (w.toNumber (w.getInput "timeout"))).ge
      (.fin ((min (1 + fuel) (2 ^ 53) : ℕ) : ℚ)) = false) :
    ∃ trace, verifyAuthorization w fuel = some trace ∧
      failures trace = [timedOutMessage (w.getInput "timeout")] ∧
      sleepCount trace = pollCount w trace ∧
      logs trace = (List.range (pollCount w trace)).map (fun i =>
        checkingLine (runIndexAfter i (.fin 1))
          (numberOfRuns (w.toNumber (w.getInput "timeout")))) ∧
      (numberOfRuns (w.toNumber (w.getInput "timeout"))).ge
        (.fin ((min (pollCount w trace + 1) (2 ^ 53) : ℕ) : ℚ)) = false ∧
      (1 ≤ pollCount w trace → (numberOfRuns (w.toNumber (w.getInput "timeout"))).ge
        (.fin ((min (pollCount w trace) (2 ^ 53) : ℕ) : ℚ)) = true) := by
  obtain ⟨⟨de, h1⟩, ⟨we, h2⟩, ⟨date, h3⟩, h4⟩ := hs
  obtain ⟨res, hres⟩ := pollLoop_total_of_budget w.verification (verificationUrl w)
    (verificationBody (J := J) w.uuidv4) (numberOfRuns (w.toNumber (w.getInput "timeout")))
    fuel 0 initialVars (by simpa only [initialVars, runIndexAfter_one] using hfuel)
  have hrun := run_submitted w fuel de we date h1 h2 h3 h4
  rw [show polling w fuel = some res from hres, Option.map_some'] at hrun
  obtain ⟨t, r, _, htrace, F, hcount, hfail, hsleep⟩ :=
    run_submitted_facts w fuel de we date h1 h2 h3 h4 _ hrun
  obtain ⟨⟨s1, hr, hA⟩, hlast, hreach⟩ := F.of_unactioned hall
  subst hr
  have hconc : conclusion (J := J) (w.getInput "timeout") (.ok s1) =
      .setFailed (timedOutMessage (w.getInput "timeout")) := by
    simp [conclusion, hA]
  rw [htrace] at hrun hcount hfail hsleep
  refine ⟨_, hrun, ?_, ?_, ?_, ?_, ?_⟩
  · rw [hfail, hconc]; rfl
  · rw [hsleep, hcount]
  · rw [hcount, logs_append, logs_append, logs_prelude, F.lines, hconc]
    simp [logs, initialVars]
  · rw [hcount]; exact hlast
  · rw [hcount]; exact hreach

/-- A run whose submission succeeds, whose budget is the finite value `x` with `0 ≤ x < 2 ^ 53`,
and whose polls up to `x` all return unactioned decisions: with fuel above `x` it returns after
exactly `floor x` polls and as many sleeps, and ends with the timed-out failure. -/
theorem run_within_budget {J : Type} (w : World J) (x : ℚ) (hs : SubmissionSucceeds w)
    (hn : numberOfRuns (w.toNumber (w.getInput "timeout")) = .fin x)
    (hx0 : 0 ≤ x) (hx : x < 2 ^ 53)
    (hall : ∀ j : ℕ, 1 ≤ j → (j : ℚ) ≤ x → ∃ d, w.verification j = .ok d ∧ d.actioned = false)
    (fuel : Nat) (hfuel : x < fuel + 1) :
    ∃ trace, verifyAuthorization w fuel = some trace ∧
      (pollCount w trace : ℤ) = ⌊x⌋ ∧ sleepCount trace = pollCount w trace ∧
      failures trace = [timedOutMessage (w.getInput "timeout")] ∧
      logs trace = (List.range (pollCount w trace)).map (fun i =>
        checkingLine (runIndexAfter i (.fin 1)) (.fin x)) := by
  have hcap : ∀ j : ℕ, ((min j (2 ^ 53) : ℕ) : ℚ) ≤ x → (j : ℚ) ≤ x := by
    intro j hj
    rcases Nat.le_total j (2 ^ 53) with h | h
    · rwa [Nat.min_eq_left h] at hj
    · rw [Nat.min_eq_right h] at hj
      push_cast at hj
      linarith
  obtain ⟨trace, hrun, hfail, hsleep, hlogs, hlast, hreach⟩ := run_unactioned w hs
    (by
      intro j hj hge
      rw [hn] at hge
      simp only [JSNum.ge, decide_eq_true_eq] at hge
      exact hall j hj (hcap j hge))
    fuel (by
      rw [hn]
      simp only [JSNum.ge, decide_eq_false_iff_not, not_le]
      rcases Nat.le_total (1 + fuel) (2 ^ 53) with h | h
      · rw [Nat.min_eq_left h]; push_cast; linarith
      · rw [Nat.min_eq_right h]; push_cast; exact hx)
  rw [hn] at hlogs hlast hreach
  simp only [JSNum.ge, decide_eq_false_iff_not, not_le, decide_eq_true_eq] at hlast hreach
  refine ⟨trace, hrun, ?_, hsleep, hfail, hlogs⟩
  symm
  rw [Int.floor_eq_iff]
  constructor
  · by_cases hpos : 1 ≤ pollCount w trace
    · exact_mod_cast hcap _ (hreach hpos)
    · have h0 : pollCount w trace = 0 := by omega
      rw [h0]
      simpa using hx0
  · have : (((min (pollCount w trace + 1) (2 ^ 53) : ℕ) : ℚ)) ≤ (pollCount w trace : ℚ) + 1 := by
      exact_mod_cast Nat.min_le_left _ _
    push_cast
    linarith

/-- A run whose submission succeeds, whose budget is `2 ^ 53` or more, and whose polls all return
unactioned decisions never returns, whatever the fuel. -/
theorem run_never_returns {J : Type} (w : World J) (hs : SubmissionSucceeds w)
    (hbudget : (numberOfRuns (w.toNumber (w.getInput "timeout"))).ge
      (.fin ((2 ^ 53 : ℕ) : ℚ)) = true)
    (hall : ∀ j, 1 ≤ j → ∃ d, w.verification j = .ok d ∧ d.actioned = false) (fuel : Nat) :
    verifyAuthorization w fuel = none := by
  obtain ⟨⟨de, h1⟩, ⟨we, h2⟩, ⟨date, h3⟩, h4⟩ := hs
  rw [run_submitted w fuel de we date h1 h2 h3 h4]
  have : polling w fuel = none :=
    pollLoop_none_of_saturated _ _ _ _ hbudget hall fuel 0 initialVars 1 rfl
      (by simp [initialVars]) (by norm_num)
  rw [this]
  rfl

/-- A run whose submission succeeds and whose budget does not reach the first attempt: it
returns at once, with no poll and no sleep, and signals the timed-out failure. -/
theorem run_zero_budget {J : Type} (w : World J) (hs : SubmissionSucceeds w)
    (hzero : (numberOfRuns (w.toNumber (w.getInput "timeout"))).ge (.fin 1) = false)
    (fuel : Nat) :
    ∃ trace, verifyAuthorization w fuel = some trace ∧ pollCount w trace = 0 ∧
      sleepCount trace = 0 ∧ failures trace = [timedOutMessage (w.getInput "timeout")] ∧
      (postsTo (submissionUrl w) trace).length = 1 := by
  obtain ⟨⟨de, h1⟩, ⟨we, h2⟩, ⟨date, h3⟩, h4⟩ := hs
  have hexit : polling w fuel = some ([], .ok initialVars) :=
    pollLoop_exit _ _ _ _ _ _ _ (by simpa [initialVars] using hzero)
  have hrun := run_submitted w fuel de we date h1 h2 h3 h4
  rw [hexit, Option.map_some'] at hrun
  refine ⟨_, hrun, ?_, ?_, ?_, ?_⟩
  · simp only [List.append_nil, pollCount, postsTo_append, polls_prelude, posts_conclusion]; rfl
  · simp only [List.append_nil, sleepCount_append, sleepCount_prelude, sleepCount_conclusion]
  · simp only [List.append_nil, failures_append, failures_prelude]; rfl
  · simp only [List.append_nil, postsTo_append, submissions_prelude, posts_conclusion]; rfl

/-- Every line a run logs is the final "authorized" line or an attempt line showing
`numberOfRuns` as computed. -/
theorem run_logs {J : Type} (w : World J) (fuel : Nat) (trace : List (Event J))
    (h : verifyAuthorization w fuel = some trace) :
    ∀ line ∈ logs trace, line = [.text "The deploy is authorized to continue."] ∨
      ∃ i, line = checkingLine i (numberOfRuns (w.toNumber (w.getInput "timeout"))) := by
  rcases run_before_polling w fuel with ⟨m, pre, hrun, _, hl, _, _⟩ | ⟨de, we, date, h1, h2, h3, h4⟩
  · rw [hrun] at h
    cases h
    intro line hline
    rw [logs_append, hl] at hline
    simp [logs] at hline
  · obtain ⟨t, r, _, htrace, F, _, _, _⟩ :=
      run_submitted_facts w fuel de we date h1 h2 h3 h4 trace h
    intro line hline
    rw [htrace, logs_append, logs_append, logs_prelude, F.lines] at hline
    simp only [List.nil_append, List.mem_append, List.mem_map, List.mem_range] at hline
    rcases hline with ⟨i, _, hi⟩ | hline
    · exact .inr ⟨_, hi.symm⟩
    · left
      cases r with
      | error m => simp [conclusion, logs] at hline
      | ok s =>
        simp only [conclusion] at hline
        split at hline
        · split at hline
          · simpa [logs] using hline
          · simp [logs] at hline
        · simp [logs] at hline

/-- The requests of a finished run: none at all, or one submission carrying `submittedBody`
followed by verification calls that all carry `verificationBody`. -/
theorem run_posts {J : Type} (w : World J) (fuel : Nat) (trace : List (Event J))
    (h : verifyAuthorization w fuel = some trace) :
    (postsTo (submissionUrl w) trace = [] ∧ postsTo (verificationUrl w) trace = []) ∨
    ∃ de we date c, w.jsonParse (w.getInput "deployment-environments") = .ok de ∧
      w.jsonParse (w.getInput "whitelisted-environments") = .ok we ∧
      w.toLocaleString (w.getInput "timezone") = .ok date ∧
      postsTo (submissionUrl w) trace = [submittedBody w de we date] ∧
      postsTo (verificationUrl w) trace = List.replicate c (verificationBody w.uuidv4) := by
  cases h1 : w.jsonParse (w.getInput "deployment-environments") with
  | error m =>
    rw [run_parse_error_first w fuel m h1] at h
    cases h
    exact .inl ⟨rfl, rfl⟩
  | ok de =>
    cases h2 : w.jsonParse (w.getInput "whitelisted-environments") with
    | error m =>
      rw [run_parse_error_second w fuel de m h1 h2] at h
      cases h
      exact .inl ⟨rfl, rfl⟩
    | ok we =>
      cases h3 : w.toLocaleString (w.getInput "timezone") with
      | error m =>
        rw [run_date_error w fuel de we m h1 h2 h3] at h
        cases h
        exact .inl ⟨rfl, rfl⟩
      | ok date =>
        right
        cases h4 : w.submission with
        | error m =>
          rw [run_submission_error w fuel de we date m h1 h2 h3 h4] at h
          cases h
          refine ⟨de, we, date, 0, rfl, rfl, rfl, ?_, ?_⟩
          · rw [postsTo_append, submissions_prelude]; rfl
          · rw [postsTo_append, polls_prelude]; rfl
        | ok u =>
          obtain ⟨t, r, _, htrace, F, _, _, _⟩ :=
            run_submitted_facts w fuel de we date h1 h2 h3 h4 trace h
          refine ⟨de, we, date, (postsTo (verificationUrl w) t).length, rfl, rfl, rfl, ?_, ?_⟩
          · rw [htrace, postsTo_append, postsTo_append, submissions_prelude, posts_conclusion,
              F.otherPosts _ (submissionUrl_ne_verificationUrl w)]
            rfl
          · rw [htrace, postsTo_append, postsTo_append, polls_prelude, posts_conclusion,
              List.nil_append, List.append_nil]
            exact F.posts

/-- The lines logged, the failures signalled and the way the loop ends do not depend on the body
sent with the verification calls. -/
theorem pollLoop_outputs_body {J : Type} (verification : Nat → Except String Decision)
    (url : String) (body1 body2 : Obj J) (n : JSNum) :
    ∀ (fuel polled : Nat) (s : LoopVars),
      (pollLoop verification url body1 n fuel polled s).map loopOutputs =
        (pollLoop verification url body2 n fuel polled s).map loopOutputs := by
  intro fuel
  induction fuel with
  | zero =>
    intro polled s
    by_cases hc : (s.answerProvided == false && n.ge s.runIndex) = true
    · rw [pollLoop_zero_none _ _ _ _ _ _ hc, pollLoop_zero_none _ _ _ _ _ _ hc]
    · have hc2 : (s.answerProvided == false && n.ge s.runIndex) = false := by
        simpa using hc
      rw [pollLoop_exit _ _ _ _ _ _ _ hc2, pollLoop_exit _ _ _ _ _ _ _ hc2]
  | succ fuel ih =>
    intro polled s
    by_cases hc : (s.answerProvided == false && n.ge s.runIndex) = true
    · cases hv : verification (polled + 1) with
      | error m =>
        rw [pollLoop_error _ _ _ _ _ _ _ m hc hv, pollLoop_error _ _ _ _ _ _ _ m hc hv]
        rfl
      | ok data =>
        rw [pollLoop_ok _ _ _ _ _ _ _ data hc hv, pollLoop_ok _ _ _ _ _ _ _ data hc hv]
        have := ih (polled + 1) (advance s data)
        cases h1 : pollLoop verification url body1 n fuel (polled + 1) (advance s data) with
        | none =>
          cases h2 : pollLoop verification url body2 n fuel (polled + 1) (advance s data) with
          | none => rfl
          | some p2 => rw [h1, h2] at this; cases this
        | some p1 =>
          cases h2 : pollLoop verification url body2 n fuel (polled + 1) (advance s data) with
          | none => rw [h1, h2] at this; cases this
          | some p2 =>
            rw [h1, h2] at this
            simp only [Option.map_some', Option.some.injEq, loopOutputs, Prod.mk.injEq] at this ⊢
            obtain ⟨e1, e2, e3⟩ := this
            refine ⟨?_, ?_, e3⟩
            · rw [logs_append, logs_append, e1]; rfl
            · rw [failures_append, failures_append, e2]; rfl
    · have hc2 : (s.answerProvided == false && n.ge s.runIndex) = false := by
        simpa using hc
      rw [pollLoop_exit _ _ _ _ _ _ _ hc2, pollLoop_exit _ _ _ _ _ _ _ hc2]

theorem sampleWorld_submits (timeout : String) (minutes : JSNum)
    (verification : Nat → Except String Decision) :
    SubmissionSucceeds (sampleWorld timeout minutes (.ok ()) verification) :=
  ⟨⟨[], rfl⟩, ⟨[], rfl⟩, ⟨_, rfl⟩, rfl⟩

/-- The run of `approvedAtFirstPoll` performs exactly the effects of
`approvedAtFirstPollTrace`. -/
theorem approvedAtFirstPoll_run :
    verifyAuthorization approvedAtFirstPoll 1 = some approvedAtFirstPollTrace := by
  have hn : numberOfRuns (approvedAtFirstPoll.toNumber (approvedAtFirstPoll.getInput "timeout")) =
      .fin 60 := numberOfRuns_five
  have hp : polling approvedAtFirstPoll 1 = some
      (iteration (verificationUrl approvedAtFirstPoll)
        (verificationBody approvedAtFirstPoll.uuidv4) (.fin 60) initialVars,
        .ok (advance initialVars ⟨true, true⟩)) := by
    unfold polling
    rw [hn, pollLoop_ok _ _ _ _ _ _ _ ⟨true, true⟩ (by simp [initialVars, JSNum.ge]) rfl,
      pollLoop_exit _ _ _ _ _ _ _ (by simp [advance])]
    rfl
  rw [run_submitted approvedAtFirstPoll 1 [] [] "2022-03-01, 10:15:00 a.m." rfl rfl rfl rfl, hp]
  simp only [Option.map_some', Option.some.injEq]
  decide

/-! ## The claims -/

/-- C1. The gate never passes without approval: a finished run made no call to `core.setFailed`
exactly when it issued at least one verification poll and the last poll issued returned a decision
with `actioned` and `authorized` both true; every finished run that did not end that way called
`core.setFailed` exactly once. This holds for every world (inputs, server answers, failures,
timeout value) and every amount of fuel. -/
theorem gate_passes_only_on_approval {J : Type} (w : World J) (fuel : Nat)
    (trace : List (Event J)) (h : verifyAuthorization w fuel = some trace) :
    (failures trace = [] ↔
      (1 ≤ pollCount w trace ∧ w.verification (pollCount w trace) = .ok ⟨true, true⟩)) ∧
    (¬ (1 ≤ pollCount w trace ∧ w.verification (pollCount w trace) = .ok ⟨true, true⟩) →
      (failures trace).length = 1) := by
  rcases run_before_polling w fuel with ⟨m, pre, hrun, hf, _, _, hp⟩ | ⟨de, we, date, h1, h2, h3, h4⟩
  · rw [hrun] at h
    cases h
    have hcount : pollCount w (pre ++ [Event.setFailed m]) = 0 := by
      simp [pollCount, postsTo_append, hp, postsTo]
    have hfail : failures (pre ++ [Event.setFailed m]) = [m] := by
      simp [failures_append, hf, failures]
    rw [hcount, hfail]
    simp
  · obtain ⟨t, r, _, _, F, hcount, hfail, _⟩ :=
      run_submitted_facts w fuel de we date h1 h2 h3 h4 trace h
    rw [hcount, hfail]
    cases r with
    | error m =>
      obtain ⟨_, hv⟩ := F.thrown m rfl
      rw [Nat.zero_add] at hv
      simp [conclusion, failures, hv]
    | ok s1 =>
      obtain ⟨_, e2, e3, _⟩ := F.exited s1 rfl
      by_cases hpos : 1 ≤ (postsTo (verificationUrl w) t).length
      · obtain ⟨hv, ha⟩ := e3 hpos
        rw [Nat.zero_add] at hv
        rw [hv]
        obtain ⟨idx, ans, ⟨act, auth⟩⟩ := s1
        simp only at ha
        subst ha
        cases ans <;> cases auth <;> simp [conclusion, failures, hpos]
      · have h0 : (postsTo (verificationUrl w) t).length = 0 := by omega
        rw [e2 h0, h0]
        simp [conclusion, failures, initialVars]

theorem gate_passes_only_on_approval_witness :
    verifyAuthorization approvedAtFirstPoll 1 = some approvedAtFirstPollTrace ∧
    (failures approvedAtFirstPollTrace = [] ↔
      (1 ≤ pollCount approvedAtFirstPoll approvedAtFirstPollTrace ∧
        approvedAtFirstPoll.verification
          (pollCount approvedAtFirstPoll approvedAtFirstPollTrace) = .ok ⟨true, true⟩)) ∧
    (¬ (1 ≤ pollCount approvedAtFirstPoll approvedAtFirstPollTrace ∧
        approvedAtFirstPoll.verification
          (pollCount approvedAtFirstPoll approvedAtFirstPollTrace) = .ok ⟨true, true⟩) →
      (failures approvedAtFirstPollTrace).length = 1) :=
  ⟨approvedAtFirstPoll_run,
    gate_passes_only_on_approval approvedAtFirstPoll 1 approvedAtFirstPollTrace
      approvedAtFirstPoll_run⟩

/-- C2 (as the code has it). When the submission succeeds, the budget `numberOfRuns` that the
code computes from the timeout in binary64 arithmetic is a finite value `x` with
`0 ≤ x < 2 ^ 53`, and every verification poll succeeds with `actioned = false`, the run returns
(any fuel above the budget is enough) after exactly `floor x` verification polls and signals
failure once, with the timed-out message built around the configured timeout text. For a whole
number of minutes `m` with `60 * m ≤ 2 ^ 53` that count is `floor((m * 60) / 5)`. -/
theorem timed_out_after_max_attempts {J : Type} (w : World J) (x : ℚ)
    (hs : SubmissionSucceeds w)
    (hn : numberOfRuns (w.toNumber (w.getInput "timeout")) = .fin x)
    (hx0 : 0 ≤ x) (hx : x < 2 ^ 53)
    (hall : ∀ j, 1 ≤ j → ∃ d, w.verification j = .ok d ∧ d.actioned = false)
    (fuel : Nat) (hfuel : x < fuel + 1) :
    ∃ trace, verifyAuthorization w fuel = some trace ∧
      (pollCount w trace : ℤ) = ⌊x⌋ ∧
      failures trace = ["No answer provided to authorize the deploy after " ++
        w.getInput "timeout" ++ " minutes. This deploy is not authorized to continue..."] ∧
      (∀ m : ℕ, w.toNumber (w.getInput "timeout") = .fin (m : ℚ) → 60 * m ≤ 2 ^ 53 →
        (pollCount w trace : ℤ) = ⌊(m : ℚ) * 60 / 5⌋) := by
  obtain ⟨trace, hrun, hcount, _, hfail, _⟩ :=
    run_within_budget w x hs hn hx0 hx (fun j hj _ => hall j hj) fuel hfuel
  refine ⟨trace, hrun, hcount, hfail, ?_⟩
  intro m hm h60
  rw [hm, numberOfRuns_natCast m h60] at hn
  rw [hcount, ← JSNum.fin.inj hn]
  congr 1
  push_cast
  ring

theorem timed_out_after_max_attempts_witness :
    ∃ trace, verifyAuthorization (sampleWorld "1" (.fin 1) (.ok ()) neverActioned) 12 =
        some trace ∧
      (pollCount (sampleWorld "1" (.fin 1) (.ok ()) neverActioned) trace : ℤ) = ⌊(12 : ℚ)⌋ ∧
      failures trace = ["No answer provided to authorize the deploy after " ++
        (sampleWorld "1" (.fin 1) (.ok ()) neverActioned).getInput "timeout" ++
        " minutes. This deploy is not authorized to continue..."] ∧
      (∀ m : ℕ, (sampleWorld "1" (.fin 1) (.ok ()) neverActioned).toNumber
          ((sampleWorld "1" (.fin 1) (.ok ()) neverActioned).getInput "timeout") =
          .fin (m : ℚ) → 60 * m ≤ 2 ^ 53 →
        (pollCount (sampleWorld "1" (.fin 1) (.ok ()) neverActioned) trace : ℤ) =
          ⌊(m : ℚ) * 60 / 5⌋) :=
  timed_out_after_max_attempts (sampleWorld "1" (.fin 1) (.ok ()) neverActioned) 12
    (sampleWorld_submits _ _ _) numberOfRuns_one (by norm_num) (by norm_num)
    (fun _ _ => ⟨_, rfl, rfl⟩) 12 (by norm_num)

/-- C2 fails as stated. The binary64 value written 0.08333333333333333 is
6004799503160661 / 2 ^ 56, for which `floor((timeout * 60) / 5)` is 0; the code computes a budget
of 1 (the product by 60 rounds up to 5) and issues one verification poll before it signals the
timed-out failure. And with a timeout of `10 ^ 15` minutes, whose budget exceeds `2 ^ 53`, the
run never returns: `runIndex++` stops growing at `2 ^ 53`. -/
theorem timed_out_poll_count_is_not_the_exact_floor :
    toDouble (6004799503160661 / 2 ^ 56) = .fin (6004799503160661 / 2 ^ 56) ∧
    ⌊(6004799503160661 / 2 ^ 56 : ℚ) * 60 / 5⌋ = 0 ∧
    (∃ trace,
      verifyAuthorization (sampleWorld "0.08333333333333333" (.fin (6004799503160661 / 2 ^ 56))
        (.ok ()) neverActioned) 1 = some trace ∧
      pollCount (sampleWorld "0.08333333333333333" (.fin (6004799503160661 / 2 ^ 56))
        (.ok ()) neverActioned) trace = 1 ∧
      failures trace = ["No answer provided to authorize the deploy after 0.08333333333333333 minutes. This deploy is not authorized to continue..."]) ∧
    (∀ fuel, verifyAuthorization (sampleWorld "1000000000000000" (.fin 1000000000000000)
      (.ok ()) neverActioned) fuel = none) := by
  refine ⟨?_, ?_, ?_, ?_⟩
  · rw [toDouble_eq (6004799503160661 / 2 ^ 56) (-4) 6004799503160661 (by norm_num)
      (by norm_num [abs_of_nonneg]) (by norm_num [abs_of_nonneg]) (by norm_num)
      (by
        have : (6004799503160661 / 2 ^ 56 : ℚ) / 2 ^ ((-4 : ℤ) - 52) =
            ((6004799503160661 : ℤ) : ℚ) := by norm_num
        rw [this, roundHalfEven_intCast])
      (by norm_num [abs_of_nonneg])]
    norm_num
  · rw [Int.floor_eq_iff]; norm_num
  · obtain ⟨trace, hrun, hcount, _, hfail, _⟩ :=
      run_within_budget (sampleWorld "0.08333333333333333" (.fin (6004799503160661 / 2 ^ 56))
        (.ok ()) neverActioned) 1 (sampleWorld_submits _ _ _) numberOfRuns_twelfth
        (by norm_num) (by norm_num) (fun _ _ _ => ⟨_, rfl, rfl⟩) 1 (by norm_num)
    refine ⟨trace, hrun, ?_, hfail⟩
    have : (pollCount (sampleWorld "0.08333333333333333" (.fin (6004799503160661 / 2 ^ 56))
        (.ok ()) neverActioned) trace : ℤ) = 1 := by
      rw [hcount]; norm_num
    exact_mod_cast this
  · intro fuel
    exact run_never_returns _ (sampleWorld_submits _ _ _)
      (by
        show (numberOfRuns (.fin 1000000000000000)).ge _ = true
        rw [numberOfRuns_huge]
        simp only [JSNum.ge, decide_eq_true_eq]
        norm_num)
      (fun _ _ => ⟨_, rfl, rfl⟩) fuel

/-- With a timeout of 155754737307298.75 minutes, of budget 1869056847687584.75, and every poll
up to number 1869056847687584 unactioned, the run returns after 1869056847687584 polls with the
timed-out failure, whatever the server would answer to later polls. -/
theorem large_timeout_times_out (verification : Nat → Except String Decision)
    (hall : ∀ j : ℕ, 1 ≤ j → j ≤ 1869056847687584 →
      ∃ d, verification j = .ok d ∧ d.actioned = false) :
    ∃ trace,
      verifyAuthorization (sampleWorld "155754737307298.75" (.fin (623018949229195 / 4))
        (.ok ()) verification) 1869056847687585 = some trace ∧
      pollCount (sampleWorld "155754737307298.75" (.fin (623018949229195 / 4))
        (.ok ()) verification) trace = 1869056847687584 ∧
      failures trace = ["No answer provided to authorize the deploy after 155754737307298.75 minutes. This deploy is not authorized to continue..."] := by
  obtain ⟨trace, hrun, hcount, _, hfail, _⟩ :=
    run_within_budget (sampleWorld "155754737307298.75" (.fin (623018949229195 / 4))
      (.ok ()) verification) (7476227390750339 / 4) (sampleWorld_submits _ _ _)
      numberOfRuns_large (by norm_num) (by norm_num)
      (by
        intro j hj hle
        apply hall j hj
        have h2 : (j : ℚ) < 1869056847687585 := by
          have : (7476227390750339 / 4 : ℚ) < 1869056847687585 := by norm_num
          linarith
        have h3 : j < 1869056847687585 := by exact_mod_cast h2
        omega)
      1869056847687585 (by norm_num)
  refine ⟨trace, hrun, ?_, hfail⟩
  have hfloor : ⌊(7476227390750339 / 4 : ℚ)⌋ = 1869056847687584 := by
    rw [Int.floor_eq_iff]; norm_num
  rw [hfloor] at hcount
  exact_mod_cast hcount

/-- C3 (as the code has it). For `1 ≤ k ≤ floor x`, where the finite value `x` is the budget
`numberOfRuns` that the code computes from the timeout in binary64 arithmetic: when the
submission succeeds, polls `1 .. k - 1` return `actioned = false` and poll `k` returns
`actioned = true, authorized = true`, the run returns (fuel `k` is enough) without any call to
`core.setFailed`, after exactly `k` verification polls. -/
theorem authorized_at_poll {J : Type} (w : World J) (x : ℚ) (k : Nat)
    (hs : SubmissionSucceeds w)
    (hn : numberOfRuns (w.toNumber (w.getInput "timeout")) = .fin x)
    (hk : 1 ≤ k) (hmax : (k : ℤ) ≤ ⌊x⌋)
    (hbefore : ∀ j, 1 ≤ j → j < k → ∃ d, w.verification j = .ok d ∧ d.actioned = false)
    (hat : w.verification k = .ok ⟨true, true⟩) (fuel : Nat) (hfuel : k ≤ fuel) :
    ∃ trace, verifyAuthorization w fuel = some trace ∧ failures trace = [] ∧
      pollCount w trace = k := by
  have hbudget : (numberOfRuns (w.toNumber (w.getInput "timeout"))).ge (.fin (k : ℚ)) = true := by
    rw [hn]
    simp only [JSNum.ge, decide_eq_true_eq]
    exact_mod_cast Int.le_floor.mp hmax
  obtain ⟨trace, r, hrun, hcount, _, hfail, herr, hok⟩ := run_decisive w k hs hk hbudget hbefore
    (by intro d hd; rw [hat] at hd; cases hd; rfl) fuel hfuel
  refine ⟨trace, hrun, ?_, hcount⟩
  cases r with
  | error m =>
    have := herr m rfl
    rw [hat] at this; cases this
  | ok s1 =>
    obtain ⟨h1, h2⟩ := hok s1 rfl
    rw [hat] at h1
    rw [hfail]
    have h3 : s1.response = ⟨true, true⟩ := (Except.ok.inj h1).symm
    simp [conclusion, failures, h2, h3]

theorem authorized_at_poll_witness :
    ∃ trace, verifyAuthorization (sampleWorld "5" (.fin 5) (.ok ()) (actionedAt 3 ⟨true, true⟩)) 3 =
        some trace ∧ failures trace = [] ∧
      pollCount (sampleWorld "5" (.fin 5) (.ok ()) (actionedAt 3 ⟨true, true⟩)) trace = 3 :=
  authorized_at_poll (sampleWorld "5" (.fin 5) (.ok ()) (actionedAt 3 ⟨true, true⟩)) 60 3
    (sampleWorld_submits _ _ _) numberOfRuns_five (by norm_num) (by norm_num [Int.le_floor])
    (fun j _ hj => ⟨⟨false, false⟩, by simp [sampleWorld, actionedAt]; omega, rfl⟩)
    (by simp [sampleWorld, actionedAt]) 3 (by norm_num)

/-- C3 fails as stated. With a timeout of 155754737307298.75 minutes,
`floor((timeout * 60) / 5)` is 1869056847687585, but the code computes the budget
1869056847687584.75 (the product by 60 rounds down). If polls 1 to 1869056847687584 are
unactioned and poll 1869056847687585 would be approved, that poll is never issued: the run ends
after 1869056847687584 polls with the timed-out failure. -/
theorem approval_at_exact_floor_is_not_reached :
    ((1869056847687585 : ℕ) : ℤ) ≤ ⌊(623018949229195 / 4 : ℚ) * 60 / 5⌋ ∧
    (∀ j, 1 ≤ j → j < 1869056847687585 →
      ∃ d, actionedAt 1869056847687585 ⟨true, true⟩ j = .ok d ∧ d.actioned = false) ∧
    actionedAt 1869056847687585 ⟨true, true⟩ 1869056847687585 = .ok ⟨true, true⟩ ∧
    ∃ trace,
      verifyAuthorization (sampleWorld "155754737307298.75" (.fin (623018949229195 / 4))
        (.ok ()) (actionedAt 1869056847687585 ⟨true, true⟩)) 1869056847687585 = some trace ∧
      pollCount (sampleWorld "155754737307298.75" (.fin (623018949229195 / 4))
        (.ok ()) (actionedAt 1869056847687585 ⟨true, true⟩)) trace = 1869056847687584 ∧
      failures trace = ["No answer provided to authorize the deploy after 155754737307298.75 minutes. This deploy is not authorized to continue..."] := by
  have hun : ∀ j : ℕ, 1 ≤ j → j < 1869056847687585 →
      ∃ d, actionedAt 1869056847687585 ⟨true, true⟩ j = .ok d ∧ d.actioned = false := by
    intro j _ hj
    refine ⟨⟨false, false⟩, ?_, rfl⟩
    simp only [actionedAt]
    rw [if_neg (by omega)]
  refine ⟨?_, hun, by simp [actionedAt], ?_⟩
  · rw [Int.le_floor]; norm_num
  · exact large_timeout_times_out _ (fun j h1 h2 => hun j h1 (by omega))

/-- C4 (as the code has it). For `1 ≤ k ≤ floor x`, where the finite value `x` is the budget
`numberOfRuns` that the code computes from the timeout in binary64 arithmetic: when the
submission succeeds, polls `1 .. k - 1` return `actioned = false` and poll `k` returns
`actioned = true, authorized = false`, the run returns (fuel `k` is enough) having signalled
failure once, with exactly the message "The deploy has been denied.", after exactly `k`
verification polls. -/
theorem denied_at_poll {J : Type} (w : World J) (x : ℚ) (k : Nat)
    (hs : SubmissionSucceeds w)
    (hn : numberOfRuns (w.toNumber (w.getInput "timeout")) = .fin x)
    (hk : 1 ≤ k) (hmax : (k : ℤ) ≤ ⌊x⌋)
    (hbefore : ∀ j, 1 ≤ j → j < k → ∃ d, w.verification j = .ok d ∧ d.actioned = false)
    (hat : w.verification k = .ok ⟨true, false⟩) (fuel : Nat) (hfuel : k ≤ fuel) :
    ∃ trace, verifyAuthorization w fuel = some trace ∧
      failures trace = ["The deploy has been denied."] ∧ pollCount w trace = k := by
  have hbudget : (numberOfRuns (w.toNumber (w.getInput "timeout"))).ge (.fin (k : ℚ)) = true := by
    rw [hn]
    simp only [JSNum.ge, decide_eq_true_eq]
    exact_mod_cast Int.le_floor.mp hmax
  obtain ⟨trace, r, hrun, hcount, _, hfail, herr, hok⟩ := run_decisive w k hs hk hbudget hbefore
    (by intro d hd; rw [hat] at hd; cases hd; rfl) fuel hfuel
  refine ⟨trace, hrun, ?_, hcount⟩
  cases r with
  | error m =>
    have := herr m rfl
    rw [hat] at this; cases this
  | ok s1 =>
    obtain ⟨h1, h2⟩ := hok s1 rfl
    rw [hat] at h1
    rw [hfail]
    have h3 : s1.response = ⟨true, false⟩ := (Except.ok.inj h1).symm
    simp [conclusion, failures, h2, h3]

theorem denied_at_poll_witness :
    ∃ trace, verifyAuthorization (sampleWorld "5" (.fin 5) (.ok ()) (actionedAt 1 ⟨true, false⟩)) 1 =
        some trace ∧ failures trace = ["The deploy has been denied."] ∧
      pollCount (sampleWorld "5" (.fin 5) (.ok ()) (actionedAt 1 ⟨true, false⟩)) trace = 1 :=
  denied_at_poll (sampleWorld "5" (.fin 5) (.ok ()) (actionedAt 1 ⟨true, false⟩)) 60 1
    (sampleWorld_submits _ _ _) numberOfRuns_five (by norm_num) (by norm_num [Int.le_floor])
    (fun j h1 hj => absurd h1 (by omega))
    (by simp [sampleWorld, actionedAt]) 1 (by norm_num)

/-- C4 fails as stated. With a timeout of 155754737307298.75 minutes,
`floor((timeout * 60) / 5)` is 1869056847687585, but the code computes the budget
1869056847687584.75. If polls 1 to 1869056847687584 are unactioned and poll 1869056847687585
would be denied, that poll is never issued: the run ends after 1869056847687584 polls with the
timed-out failure, not with "The deploy has been denied.". -/
theorem denial_at_exact_floor_is_not_reached :
    ((1869056847687585 : ℕ) : ℤ) ≤ ⌊(623018949229195 / 4 : ℚ) * 60 / 5⌋ ∧
    (∀ j, 1 ≤ j → j < 1869056847687585 →
      ∃ d, actionedAt 1869056847687585 ⟨true, false⟩ j = .ok d ∧ d.actioned = false) ∧
    actionedAt 1869056847687585 ⟨true, false⟩ 1869056847687585 = .ok ⟨true, false⟩ ∧
    ∃ trace,
      verifyAuthorization (sampleWorld "155754737307298.75" (.fin (623018949229195 / 4))
        (.ok ()) (actionedAt 1869056847687585 ⟨true, false⟩)) 1869056847687585 = some trace ∧
      pollCount (sampleWorld "155754737307298.75" (.fin (623018949229195 / 4))
        (.ok ()) (actionedAt 1869056847687585 ⟨true, false⟩)) trace = 1869056847687584 ∧
      failures trace = ["No answer provided to authorize the deploy after 155754737307298.75 minutes. This deploy is not authorized to continue..."] := by
  have hun : ∀ j : ℕ, 1 ≤ j → j < 1869056847687585 →
      ∃ d, actionedAt 1869056847687585 ⟨true, false⟩ j = .ok d ∧ d.actioned = false := by
    intro j _ hj
    refine ⟨⟨false, false⟩, ?_, rfl⟩
    simp only [actionedAt]
    rw [if_neg (by omega)]
  refine ⟨?_, hun, by simp [actionedAt], ?_⟩
  · rw [Int.le_floor]; norm_num
  · exact large_timeout_times_out _ (fun j h1 h2 => hun j h1 (by omega))

/-- C5. When the submission call is rejected with `message`, the run returns (with any fuel)
having issued no verification poll and performed no sleep, and having signalled failure exactly
once, with `message`. -/
theorem submission_failure_is_fatal {J : Type} (w : World J) (message : String)
    (hf : SubmissionFails w message) (fuel : Nat) :
    ∃ trace, verifyAuthorization w fuel = some trace ∧ pollCount w trace = 0 ∧
      sleepCount trace = 0 ∧ failures trace = [message] := by
  obtain ⟨⟨de, h1⟩, ⟨we, h2⟩, ⟨date, h3⟩, h4⟩ := hf
  refine ⟨_, run_submission_error w fuel de we date message h1 h2 h3 h4, ?_, ?_, ?_⟩
  · rw [pollCount, postsTo_append, polls_prelude]; rfl
  · rw [sleepCount_append, sleepCount_prelude]; rfl
  · rw [failures_append, failures_prelude]; rfl

theorem submission_failure_is_fatal_witness :
    ∃ trace, verifyAuthorization
        (sampleWorld "5" (.fin 5) (.error "Request failed with status code 500") neverActioned) 0 =
        some trace ∧
      pollCount (sampleWorld "5" (.fin 5) (.error "Request failed with status code 500")
        neverActioned) trace = 0 ∧
      sleepCount trace = 0 ∧ failures trace = ["Request failed with status code 500"] :=
  submission_failure_is_fatal
    (sampleWorld "5" (.fin 5) (.error "Request failed with status code 500") neverActioned)
    "Request failed with status code 500" ⟨⟨[], rfl⟩, ⟨[], rfl⟩, ⟨_, rfl⟩, rfl⟩ 0

/-- C6 (as the code has it). For `1 ≤ k ≤ floor x`, where the finite value `x` is the budget
`numberOfRuns` that the code computes from the timeout in binary64 arithmetic: when the
submission succeeds, polls `1 .. k - 1` succeed with `actioned = false` and poll `k` is rejected
with `message`, the run returns (fuel `k` is enough) after exactly `k` verification polls, and
signals failure exactly once, with `message` (not with the timed-out or the denied message,
unless `message` is that text). -/
theorem poll_failure_aborts {J : Type} (w : World J) (x : ℚ) (k : Nat) (message : String)
    (hs : SubmissionSucceeds w)
    (hn : numberOfRuns (w.toNumber (w.getInput "timeout")) = .fin x)
    (hk : 1 ≤ k) (hmax : (k : ℤ) ≤ ⌊x⌋)
    (hbefore : ∀ j, 1 ≤ j → j < k → ∃ d, w.verification j = .ok d ∧ d.actioned = false)
    (hat : w.verification k = .error message) (fuel : Nat) (hfuel : k ≤ fuel) :
    ∃ trace, verifyAuthorization w fuel = some trace ∧ pollCount w trace = k ∧
      failures trace = [message] := by
  have hbudget : (numberOfRuns (w.toNumber (w.getInput "timeout"))).ge (.fin (k : ℚ)) = true := by
    rw [hn]
    simp only [JSNum.ge, decide_eq_true_eq]
    exact_mod_cast Int.le_floor.mp hmax
  obtain ⟨trace, r, hrun, hcount, _, hfail, herr, hok⟩ := run_decisive w k hs hk hbudget hbefore
    (by intro d hd; rw [hat] at hd; cases hd) fuel hfuel
  refine ⟨trace, hrun, hcount, ?_⟩
  cases r with
  | error m =>
    have := herr m rfl
    rw [hat] at this
    rw [hfail, Except.error.inj this]
    simp [conclusion, failures]
  | ok s1 =>
    obtain ⟨h1, _⟩ := hok s1 rfl
    rw [hat] at h1; cases h1

theorem poll_failure_aborts_witness :
    ∃ trace, verifyAuthorization
        (sampleWorld "5" (.fin 5) (.ok ()) (rejectedAt 2 "socket hang up")) 2 = some trace ∧
      pollCount (sampleWorld "5" (.fin 5) (.ok ()) (rejectedAt 2 "socket hang up")) trace = 2 ∧
      failures trace = ["socket hang up"] :=
  poll_failure_aborts (sampleWorld "5" (.fin 5) (.ok ()) (rejectedAt 2 "socket hang up")) 60 2
    "socket hang up" (sampleWorld_submits _ _ _) numberOfRuns_five (by norm_num)
    (by norm_num [Int.le_floor])
    (fun j _ hj => ⟨⟨false, false⟩, by simp [sampleWorld, rejectedAt]; omega, rfl⟩)
    (by simp [sampleWorld, rejectedAt]) 2 (by norm_num)

/-- C6 fails as stated. With a timeout of 155754737307298.75 minutes,
`floor((timeout * 60) / 5)` is 1869056847687585, but the code computes the budget
1869056847687584.75. If polls 1 to 1869056847687584 are unactioned and poll 1869056847687585
would be rejected with "socket hang up", that poll is never issued: the run ends after
1869056847687584 polls with the timed-out failure, not with the error's message. -/
theorem rejection_at_exact_floor_is_not_reached :
    ((1869056847687585 : ℕ) : ℤ) ≤ ⌊(623018949229195 / 4 : ℚ) * 60 / 5⌋ ∧
    (∀ j, 1 ≤ j → j < 1869056847687585 →
      ∃ d, rejectedAt 1869056847687585 "socket hang up" j = .ok d ∧ d.actioned = false) ∧
    rejectedAt 1869056847687585 "socket hang up" 1869056847687585 = .error "socket hang up" ∧
    ∃ trace,
      verifyAuthorization (sampleWorld "155754737307298.75" (.fin (623018949229195 / 4))
        (.ok ()) (rejectedAt 1869056847687585 "socket hang up")) 1869056847687585 =
        some trace ∧
      pollCount (sampleWorld "155754737307298.75" (.fin (623018949229195 / 4))
        (.ok ()) (rejectedAt 1869056847687585 "socket hang up")) trace = 1869056847687584 ∧
      failures trace = ["No answer provided to authorize the deploy after 155754737307298.75 minutes. This deploy is not authorized to continue..."] := by
  have hun : ∀ j : ℕ, 1 ≤ j → j < 1869056847687585 →
      ∃ d, rejectedAt 1869056847687585 "socket hang up" j = .ok d ∧ d.actioned = false := by
    intro j _ hj
    refine ⟨⟨false, false⟩, ?_, rfl⟩
    simp only [rejectedAt]
    rw [if_neg (by omega)]
  refine ⟨?_, hun, by simp [rejectedAt], ?_⟩
  · rw [Int.le_floor]; norm_num
  · exact large_timeout_times_out _ (fun j h1 h2 => hun j h1 (by omega))

/-- C7 (as the code has it). For every positive numeric timeout `q`, `numberOfRuns` is the
binary64 result of `(q * 60) / 5`, not rounded down, and that value is what every attempt line
of the log shows. When `q` is a whole number with `60 * q ≤ 2 ^ 53` both operations are exact
and it equals `floor((q * 60) / 5)`; it is 60 for a timeout of 5 and 12 for a timeout of 1. -/
theorem numberOfRuns_is_plain_quotient (q : ℚ) (hq : 0 < q) :
    numberOfRuns (.fin q) = (toDouble (q * 60)).div (.fin 5) ∧
    ((∃ m : ℕ, q = m ∧ 60 * m ≤ 2 ^ 53) →
      numberOfRuns (.fin q) = .fin ((⌊q * 60 / 5⌋ : ℤ) : ℚ)) ∧
    numberOfRuns (.fin 5) = .fin 60 ∧ numberOfRuns (.fin 1) = .fin 12 ∧
    (∀ {J : Type} (w : World J) (fuel : Nat) (trace : List (Event J)),
      w.toNumber (w.getInput "timeout") = .fin q → verifyAuthorization w fuel = some trace →
      ∀ line ∈ logs trace, line = [.text "The deploy is authorized to continue."] ∨
        ∃ i, line = checkingLine i (numberOfRuns (.fin q))) := by
  have _ := hq
  refine ⟨?_, ?_, numberOfRuns_five, numberOfRuns_one, ?_⟩
  · simp [numberOfRuns, JSNum.mul, DELAY_BETWEEN_ATTEMPTS_IN_SECONDS]
  · rintro ⟨m, rfl, hm⟩
    rw [numberOfRuns_natCast m hm]
    have : (m : ℚ) * 60 / 5 = ((12 * m : ℤ) : ℚ) := by push_cast; ring
    rw [this, Int.floor_intCast]
    push_cast
    rfl
  · intro J w fuel trace ht h line hline
    have := run_logs w fuel trace h line hline
    rwa [ht] at this

theorem numberOfRuns_is_plain_quotient_witness :
    numberOfRuns (.fin 5) = (toDouble ((5 : ℚ) * 60)).div (.fin 5) ∧
    ((∃ m : ℕ, (5 : ℚ) = m ∧ 60 * m ≤ 2 ^ 53) →
      numberOfRuns (.fin 5) = .fin ((⌊(5 : ℚ) * 60 / 5⌋ : ℤ) : ℚ)) ∧
    numberOfRuns (.fin 5) = .fin 60 ∧ numberOfRuns (.fin 1) = .fin 12 ∧
    (∀ {J : Type} (w : World J) (fuel : Nat) (trace : List (Event J)),
      w.toNumber (w.getInput "timeout") = .fin 5 → verifyAuthorization w fuel = some trace →
      ∀ line ∈ logs trace, line = [.text "The deploy is authorized to continue."] ∨
        ∃ i, line = checkingLine i (numberOfRuns (.fin 5))) :=
  numberOfRuns_is_plain_quotient 5 (by norm_num)

/-- C7 fails as stated: for a timeout of 0.125 minutes, `numberOfRuns` is 1.5, not
`floor(1.5) = 1`, and the run reports "attempt 1 of 1.5". For the whole number 647449902317575
it is 7769398827810899, one less than `floor((timeout * 60) / 5)`, because the product by 60 is
rounded. -/
theorem fractional_timeout_budget_is_not_floored :
    (0 : ℚ) < 1 / 8 ∧
    ⌊(1 / 8 : ℚ) * 60 / 5⌋ = 1 ∧
    numberOfRuns (.fin (1 / 8)) = .fin (3 / 2) ∧
    numberOfRuns (.fin (1 / 8)) ≠ .fin ((⌊(1 / 8 : ℚ) * 60 / 5⌋ : ℤ) : ℚ) ∧
    (∃ trace, verifyAuthorization (sampleWorld "0.125" (.fin (1 / 8)) (.ok ()) neverActioned) 1 =
        some trace ∧
      logs trace = [checkingLine (.fin 1) (.fin (3 / 2))]) ∧
    ⌊(647449902317575 : ℚ) * 60 / 5⌋ = 7769398827810900 ∧
    numberOfRuns (.fin 647449902317575) = .fin 7769398827810899 := by
  have hfloor : ⌊(1 / 8 : ℚ) * 60 / 5⌋ = 1 := by
    rw [Int.floor_eq_iff]; norm_num
  refine ⟨by norm_num, hfloor, numberOfRuns_eighth, ?_, ?_, ?_, numberOfRuns_large_whole⟩
  · rw [numberOfRuns_eighth, hfloor]; norm_num
  · obtain ⟨trace, hrun, hcount, _, _, hlogs⟩ :=
      run_within_budget (sampleWorld "0.125" (.fin (1 / 8)) (.ok ()) neverActioned) (3 / 2)
        (sampleWorld_submits _ _ _) numberOfRuns_eighth (by norm_num) (by norm_num)
        (fun _ _ _ => ⟨_, rfl, rfl⟩) 1 (by norm_num)
    have hfl : ⌊(3 / 2 : ℚ)⌋ = 1 := by
      rw [Int.floor_eq_iff]; norm_num
    have hc : pollCount (sampleWorld "0.125" (.fin (1 / 8)) (.ok ()) neverActioned) trace = 1 := by
      rw [hfl] at hcount
      exact_mod_cast hcount
    rw [hc] at hlogs
    exact ⟨trace, hrun, by simpa [runIndexAfter] using hlogs⟩
  · rw [Int.floor_eq_iff]; norm_num

/-- C8 (as the code has it). For every configuration whose budget `numberOfRuns`, as the code
computes it from the timeout in binary64 arithmetic, is a finite value `x` with `floor x < 1`,
the run is not rejected: the request is submitted, and when the submission succeeds the run
returns (with any fuel) after no poll and no sleep, signalling failure once, with the timed-out
message. -/
theorem zero_attempts_reports_timed_out {J : Type} (w : World J) (x : ℚ)
    (hs : SubmissionSucceeds w)
    (hn : numberOfRuns (w.toNumber (w.getInput "timeout")) = .fin x)
    (hzero : ⌊x⌋ < 1) (fuel : Nat) :
    ∃ trace, verifyAuthorization w fuel = some trace ∧ pollCount w trace = 0 ∧
      sleepCount trace = 0 ∧
      failures trace = ["No answer provided to authorize the deploy after " ++
        w.getInput "timeout" ++ " minutes. This deploy is not authorized to continue..."] ∧
      (postsTo (submissionUrl w) trace).length = 1 :=
  run_zero_budget w hs (by
    rw [hn]
    simp only [JSNum.ge, decide_eq_false_iff_not, not_le]
    exact_mod_cast Int.floor_lt.mp hzero) fuel

theorem zero_attempts_reports_timed_out_witness :
    ∃ trace, verifyAuthorization (sampleWorld "0.0625" (.fin (1 / 16)) (.ok ()) neverActioned) 0 =
        some trace ∧
      pollCount (sampleWorld "0.0625" (.fin (1 / 16)) (.ok ()) neverActioned) trace = 0 ∧
      sleepCount trace = 0 ∧
      failures trace = ["No answer provided to authorize the deploy after " ++
        (sampleWorld "0.0625" (.fin (1 / 16)) (.ok ()) neverActioned).getInput "timeout" ++
        " minutes. This deploy is not authorized to continue..."] ∧
      (postsTo (submissionUrl (sampleWorld "0.0625" (.fin (1 / 16)) (.ok ()) neverActioned))
        trace).length = 1 :=
  zero_attempts_reports_timed_out (sampleWorld "0.0625" (.fin (1 / 16)) (.ok ()) neverActioned)
    (3 / 4) (sampleWorld_submits _ _ _) numberOfRuns_sixteenth
    (by rw [Int.floor_lt]; norm_num) 0

/-- C8 fails as stated: with `timeout = 0` the budget is zero attempts, yet the run submits the
request and then signals the timed-out failure ("... after 0 minutes ..."), the same signal as
any other timeout, after zero polls. -/
theorem zero_timeout_is_reported_as_timed_out :
    ⌊(0 : ℚ) * 60 / 5⌋ < 1 ∧
    ∃ trace, verifyAuthorization (sampleWorld "0" (.fin 0) (.ok ()) neverActioned) 0 =
        some trace ∧
      pollCount (sampleWorld "0" (.fin 0) (.ok ()) neverActioned) trace = 0 ∧
      (postsTo (submissionUrl (sampleWorld "0" (.fin 0) (.ok ()) neverActioned)) trace).length
        = 1 ∧
      failures trace = ["No answer provided to authorize the deploy after 0 minutes. This deploy is not authorized to continue..."] := by
  refine ⟨by norm_num, ?_⟩
  obtain ⟨trace, h1, h2, _, h4, h5⟩ :=
    run_zero_budget (sampleWorld "0" (.fin 0) (.ok ()) neverActioned) (sampleWorld_submits _ _ _)
      (by
        show (numberOfRuns (.fin 0)).ge (.fin 1) = false
        rw [numberOfRuns_zero]
        simp [JSNum.ge]) 0
  exact ⟨trace, h1, h2, h5, h4⟩

/-- C9 (as the code has it). The record submitted to the authorization server has exactly the
fields `id, submitted_date, requestor, version, commit_hash, deployment_environments,
whitelisted_environments, build_type, slack_channel_id, slack_bot_oauth_token`; `requestor`,
`version`, `commit_hash` and `build_type` carry the corresponding inputs verbatim, the two
environment fields carry the parsed `deployment-environments` and `whitelisted-environments`
inputs, the two `slack_*` fields carry the channel id and the token, and `id` is the identifier
sent as the only field of every verification poll. A run that parses its inputs and renders the
date submits exactly one such record. -/
theorem submitted_record_fields {J : Type} (w : World J) (fuel : Nat) (trace : List (Event J))
    (h : verifyAuthorization w fuel = some trace) :
    (∀ body ∈ postsTo (submissionUrl w) trace,
      body.map Prod.fst = ["id", "submitted_date", "requestor", "version", "commit_hash",
        "deployment_environments", "whitelisted_environments", "build_type", "slack_channel_id",
        "slack_bot_oauth_token"] ∧
      body.lookup "requestor" = some (.str (w.getInput "requestor")) ∧
      body.lookup "version" = some (.str (w.getInput "version")) ∧
      body.lookup "commit_hash" = some (.str (w.getInput "latest-commit-hash")) ∧
      body.lookup "build_type" = some (.str (w.getInput "build-type")) ∧
      (∃ de, w.jsonParse (w.getInput "deployment-environments") = .ok de ∧
        body.lookup "deployment_environments" = some (.json de)) ∧
      (∃ we, w.jsonParse (w.getInput "whitelisted-environments") = .ok we ∧
        body.lookup "whitelisted_environments" = some (.json we)) ∧
      body.lookup "slack_channel_id" = some (.str (w.getInput "slack-channel-id")) ∧
      body.lookup "slack_bot_oauth_token" = some (.str (w.getInput "slack-bot-oauth-token")) ∧
      body.lookup "id" = some (.str w.uuidv4) ∧
      ∀ query ∈ postsTo (verificationUrl w) trace,
        query.map Prod.fst = ["id"] ∧ query.lookup "id" = body.lookup "id") ∧
    ((∃ de we date, w.jsonParse (w.getInput "deployment-environments") = .ok de ∧
        w.jsonParse (w.getInput "whitelisted-environments") = .ok we ∧
        w.toLocaleString (w.getInput "timezone") = .ok date) →
      (postsTo (submissionUrl w) trace).length = 1) := by
  rcases run_posts w fuel trace h with ⟨h1, _⟩ | ⟨de, we, date, c, h1, h2, h3, hsub, hver⟩
  · constructor
    · intro body hbody
      rw [h1] at hbody
      cases hbody
    · rintro ⟨de, we, date, k1, k2, k3⟩
      exfalso
      cases k4 : w.submission with
      | error m =>
        rw [run_submission_error w fuel de we date m k1 k2 k3 k4] at h
        cases h
        rw [postsTo_append, submissions_prelude] at h1
        cases h1
      | ok u =>
        obtain ⟨t, r, _, htrace, _⟩ := run_submitted_facts w fuel de we date k1 k2 k3 k4 trace h
        rw [htrace, postsTo_append, postsTo_append, submissions_prelude] at h1
        cases h1
  · constructor
    · intro body hbody
      rw [hsub, List.mem_singleton] at hbody
      subst hbody
      refine ⟨rfl, rfl, rfl, rfl, rfl, ⟨de, h1, rfl⟩, ⟨we, h2, rfl⟩, rfl, rfl, rfl, ?_⟩
      intro query hquery
      rw [hver] at hquery
      rw [List.eq_of_mem_replicate hquery]
      exact ⟨rfl, rfl⟩
    · intro _
      rw [hsub]; rfl

theorem submitted_record_fields_witness :
    verifyAuthorization approvedAtFirstPoll 1 = some approvedAtFirstPollTrace ∧
      ((∀ body ∈ postsTo (submissionUrl approvedAtFirstPoll) approvedAtFirstPollTrace,
        body.map Prod.fst = ["id", "submitted_date", "requestor", "version", "commit_hash",
          "deployment_environments", "whitelisted_environments", "build_type", "slack_channel_id",
          "slack_bot_oauth_token"] ∧
        body.lookup "requestor" = some (.str (approvedAtFirstPoll.getInput "requestor")) ∧
        body.lookup "version" = some (.str (approvedAtFirstPoll.getInput "version")) ∧
        body.lookup "commit_hash" =
          some (.str (approvedAtFirstPoll.getInput "latest-commit-hash")) ∧
        body.lookup "build_type" = some (.str (approvedAtFirstPoll.getInput "build-type")) ∧
        (∃ de, approvedAtFirstPoll.jsonParse
            (approvedAtFirstPoll.getInput "deployment-environments") = .ok de ∧
          body.lookup "deployment_environments" = some (.json de)) ∧
        (∃ we, approvedAtFirstPoll.jsonParse
            (approvedAtFirstPoll.getInput "whitelisted-environments") = .ok we ∧
          body.lookup "whitelisted_environments" = some (.json we)) ∧
        body.lookup "slack_channel_id" =
          some (.str (approvedAtFirstPoll.getInput "slack-channel-id")) ∧
        body.lookup "slack_bot_oauth_token" =
          some (.str (approvedAtFirstPoll.getInput "slack-bot-oauth-token")) ∧
        body.lookup "id" = some (.str approvedAtFirstPoll.uuidv4) ∧
        ∀ query ∈ postsTo (verificationUrl approvedAtFirstPoll) approvedAtFirstPollTrace,
          query.map Prod.fst = ["id"] ∧ query.lookup "id" = body.lookup "id") ∧
      ((∃ de we date, approvedAtFirstPoll.jsonParse
            (approvedAtFirstPoll.getInput "deployment-environments") = .ok de ∧
          approvedAtFirstPoll.jsonParse
            (approvedAtFirstPoll.getInput "whitelisted-environments") = .ok we ∧
          approvedAtFirstPoll.toLocaleString (approvedAtFirstPoll.getInput "timezone") =
            .ok date) →
        (postsTo (submissionUrl approvedAtFirstPoll) approvedAtFirstPollTrace).length = 1)) :=
  ⟨approvedAtFirstPoll_run,
    submitted_record_fields approvedAtFirstPoll 1 approvedAtFirstPollTrace approvedAtFirstPoll_run⟩

/-- C9 fails as stated: the record submitted has no field named `notification_channel_id` or
`notification_credential`; its last two fields are `slack_channel_id` and
`slack_bot_oauth_token`. -/
theorem submitted_record_has_slack_field_names :
    ∃ trace body, verifyAuthorization (sampleWorld "0" (.fin 0) (.ok ()) neverActioned) 0 =
        some trace ∧
      postsTo (submissionUrl (sampleWorld "0" (.fin 0) (.ok ()) neverActioned)) trace = [body] ∧
      body.map Prod.fst ≠ ["id", "submitted_date", "requestor", "version", "commit_hash",
        "deployment_environments", "whitelisted_environments", "build_type",
        "notification_channel_id", "notification_credential"] ∧
      body.lookup "notification_channel_id" = none ∧
      body.lookup "notification_credential" = none ∧
      body.map Prod.fst = ["id", "submitted_date", "requestor", "version", "commit_hash",
        "deployment_environments", "whitelisted_environments", "build_type", "slack_channel_id",
        "slack_bot_oauth_token"] := by
  obtain ⟨trace, hrun, _, _, _, hlen⟩ :=
    run_zero_budget (sampleWorld "0" (.fin 0) (.ok ()) neverActioned) (sampleWorld_submits _ _ _)
      (by
        show (numberOfRuns (.fin 0)).ge (.fin 1) = false
        rw [numberOfRuns_zero]
        simp [JSNum.ge]) 0
  rcases run_posts _ 0 trace hrun with ⟨h0, _⟩ | ⟨de, we, date, c, _, _, _, hsub, _⟩
  · rw [h0] at hlen
    cases hlen
  · refine ⟨trace, _, hrun, hsub, ?_, rfl, rfl, rfl⟩
    show ["id", "submitted_date", "requestor", "version", "commit_hash",
        "deployment_environments", "whitelisted_environments", "build_type", "slack_channel_id",
        "slack_bot_oauth_token"] ≠ _
    decide

/-- C10. Secrets do not flow to output: two runs whose worlds agree on everything but the
generated identifier (`uuidv4`), the `slack-channel-id` input and the `slack-bot-oauth-token`
input (same other inputs, same runtime functions, same submission outcome and same poll
outcomes, error messages included) log the same lines and pass the same messages to
`core.setFailed`; with the same fuel, one returns exactly when the other does. -/
theorem secrets_do_not_reach_output {J : Type} (w1 w2 : World J) (fuel : Nat)
    (hinputs : ∀ name, name ≠ "slack-channel-id" → name ≠ "slack-bot-oauth-token" →
      w1.getInput name = w2.getInput name)
    (hparse : w1.jsonParse = w2.jsonParse) (hnumber : w1.toNumber = w2.toNumber)
    (hdate : w1.toLocaleString = w2.toLocaleString) (hsubmission : w1.submission = w2.submission)
    (hverification : w1.verification = w2.verification) :
    (verifyAuthorization w1 fuel).map outputs = (verifyAuthorization w2 fuel).map outputs := by
  have e1 : w1.jsonParse (w1.getInput "deployment-environments") =
      w2.jsonParse (w2.getInput "deployment-environments") := by
    rw [hparse, hinputs _ (by decide) (by decide)]
  have e2 : w1.jsonParse (w1.getInput "whitelisted-environments") =
      w2.jsonParse (w2.getInput "whitelisted-environments") := by
    rw [hparse, hinputs _ (by decide) (by decide)]
  have e3 : w1.toLocaleString (w1.getInput "timezone") =
      w2.toLocaleString (w2.getInput "timezone") := by
    rw [hdate, hinputs _ (by decide) (by decide)]
  have e4 : w1.getInput "timeout" = w2.getInput "timeout" := hinputs _ (by decide) (by decide)
  have e5 : verificationUrl w1 = verificationUrl w2 := by
    simp only [verificationUrl, hinputs "authorization-server-url" (by decide) (by decide)]
  cases h1 : w2.jsonParse (w2.getInput "deployment-environments") with
  | error m =>
    rw [run_parse_error_first w1 fuel m (e1.trans h1), run_parse_error_first w2 fuel m h1]
  | ok de =>
    cases h2 : w2.jsonParse (w2.getInput "whitelisted-environments") with
    | error m =>
      rw [run_parse_error_second w1 fuel de m (e1.trans h1) (e2.trans h2),
        run_parse_error_second w2 fuel de m h1 h2]
    | ok we =>
      cases h3 : w2.toLocaleString (w2.getInput "timezone") with
      | error m =>
        rw [run_date_error w1 fuel de we m (e1.trans h1) (e2.trans h2) (e3.trans h3),
          run_date_error w2 fuel de we m h1 h2 h3]
        rfl
      | ok date =>
        cases h4 : w2.submission with
        | error m =>
          rw [run_submission_error w1 fuel de we date m (e1.trans h1) (e2.trans h2)
              (e3.trans h3) (hsubmission.trans h4),
            run_submission_error w2 fuel de we date m h1 h2 h3 h4]
          simp only [Option.map_some', outputs, logs_append, failures_append, logs_prelude,
            failures_prelude]
        | ok u =>
          rw [run_submitted w1 fuel de we date (e1.trans h1) (e2.trans h2) (e3.trans h3)
              (hsubmission.trans h4),
            run_submitted w2 fuel de we date h1 h2 h3 h4]
          have key := pollLoop_outputs_body w2.verification (verificationUrl w2)
            (verificationBody (J := J) w1.uuidv4) (verificationBody w2.uuidv4)
            (numberOfRuns (w2.toNumber (w2.getInput "timeout"))) fuel 0 initialVars
          have hp1 : polling w1 fuel = pollLoop w2.verification (verificationUrl w2)
              (verificationBody (J := J) w1.uuidv4)
              (numberOfRuns (w2.toNumber (w2.getInput "timeout"))) fuel 0 initialVars := by
            simp only [polling, hverification, e5, hnumber, e4]
          rw [hp1, e4]
          change _ = Option.map outputs (Option.map _ (pollLoop w2.verification
            (verificationUrl w2) (verificationBody (J := J) w2.uuidv4)
            (numberOfRuns (w2.toNumber (w2.getInput "timeout"))) fuel 0 initialVars))
          cases h5 : pollLoop w2.verification (verificationUrl w2)
              (verificationBody (J := J) w1.uuidv4)
              (numberOfRuns (w2.toNumber (w2.getInput "timeout"))) fuel 0 initialVars with
          | none =>
            cases h6 : pollLoop w2.verification (verificationUrl w2)
                (verificationBody (J := J) w2.uuidv4)
                (numberOfRuns (w2.toNumber (w2.getInput "timeout"))) fuel 0 initialVars with
            | none => rfl
            | some p2 => rw [h5, h6] at key; cases key
          | some p1 =>
            cases h6 : pollLoop w2.verification (verificationUrl w2)
                (verificationBody (J := J) w2.uuidv4)
                (numberOfRuns (w2.toNumber (w2.getInput "timeout"))) fuel 0 initialVars with
            | none => rw [h5, h6] at key; cases key
            | some p2 =>
              rw [h5, h6] at key
              simp only [Option.map_some', Option.some.injEq, loopOutputs, Prod.mk.injEq] at key
              obtain ⟨k1, k2, k3⟩ := key
              simp only [Option.map_some', outputs, logs_append, failures_append, logs_prelude,
                failures_prelude, k1, k2, k3]

theorem secrets_do_not_reach_output_witness :
    (verifyAuthorization approvedAtFirstPoll 1).map outputs =
      (verifyAuthorization (withSecrets approvedAtFirstPoll
        "0f8fad5b-d9cb-469f-a165-70867728950e" "C9ZZZZZZZ" "token-2") 1).map outputs :=
  secrets_do_not_reach_output approvedAtFirstPoll
    (withSecrets approvedAtFirstPoll "0f8fad5b-d9cb-469f-a165-70867728950e" "C9ZZZZZZZ" "token-2")
    1 (fun name h1 h2 => by simp [withSecrets, h1, h2]) rfl rfl rfl rfl rfl

end GithubDeployBot

